import Mathlib

/-!
# Clicky Bird (AVR): shallow embedding of the task state machines

Source: `src/src/dshaw013_FlappyBirdV3.cpp`.

The C globals and the function-local `static` variables are collected in one
record, `Blackboard`, which every tick function takes and returns (explicit
state passing).  Machine integers are `Int`/`Nat`; the target is an AVR, so
`int` is 16 bits and `unsigned long` is 32 bits, and the places where the
source arithmetic can leave that range carry an explicit wrap.

Display and LCD calls (`SetWriteWindow`, `FillWindow`, `SendCommand`,
`write_score`, `scoreboard_init`) only drive peripherals and never write a
variable of the program; they are left out of the embedding.
-/

namespace ClickyBird

/-! ## Constants (`#define`s) -/

def LEVEL_SIZE : Int := 128
def PIPE_SPACING : Int := 32
def PLAYER_OFFSET : Int := 31
def PLAYER_SIZE : Int := 10
def PIPE_WIDTH : Int := 16
def GAP : Int := 32

/-! ## Data model -/

/-- Game phase, `enum GAME_STATE {PAUSE, PLAY, RESET}`. -/
inductive GAME_STATE where
  | PAUSE
  | PLAY
  | RESET
deriving DecidableEq, Repr

/-- One column of the level, `struct column`: `has_pipe`, the constant `gap`
(a `const uint8_t` initialised to `GAP`) and `bottom` (an `int8_t`, `-1` by
default). -/
structure column where
  has_pipe : Bool := false
  gap : Int := GAP
  bottom : Int := -1

/-- The shared variables of the program together with the `static` locals of
the tick functions.

* `columns` is the array `columns[LEVEL_SIZE]`, as a map from the index; only
  the indices `0 .. LEVEL_SIZE - 1` exist in the source.
* `curr_column` is the pointer `curr_column`, kept as the index `k` of the
  element `&columns[k]` it points to.
* `PINC` is the input register read through `GetBit`.
* `menu_cnt` is `cnt` of `TickMenu`; `pos_cnt` and `speed` are `cnt` and
  `speed` of `TickPosition`; `level_i` is `i` of `TickLevel`.
* `rand_seq`/`rand_calls` stand for the C library generator: the `n`-th call
  of `rand()` returns `rand_seq n`.
* `eeprom_log` records the values passed to `EEPROM_write_score`, oldest
  first. -/
structure Blackboard where
  PINC : Nat
  control : Bool
  jump : Bool
  game_state : GAME_STATE
  height : Int
  dead : Bool
  curr_column : Int
  score : Int
  frame : Int
  high_score : Int
  columns : Int → column
  menu_cnt : Int
  pos_cnt : Nat
  speed : Nat
  level_i : Int
  rand_seq : Nat → Nat
  rand_calls : Nat
  eeprom_log : List Int

/-- A C loop `for (int i = lo; i < hi; i++) body(i)` whose body does not
assign `i`: the body is run for `lo, lo + 1, ..., hi - 1` in that order. -/
def forRange (lo hi : Int) (body : Int → Blackboard → Blackboard) (b : Blackboard) : Blackboard :=
  (List.range (hi - lo).toNat).foldl (fun (acc : Blackboard) (k : Nat) => body (lo + (k : Int)) acc) b

/-! ## TickDeath (lines 581-606) -/

/-- The index computed at line 597:
`(i < 0) ? i + LEVEL_SIZE : (i >= LEVEL_SIZE) ? i - LEVEL_SIZE : i`. -/
def wrapped_i (i : Int) : Int :=
  if i < 0 then i + LEVEL_SIZE else if i ≥ LEVEL_SIZE then i - LEVEL_SIZE else i

/-- Body of the loop of `TickDeath` (lines 597-601). -/
def TickDeath_body (i : Int) (b : Blackboard) : Blackboard :=
  let check_column := b.columns (wrapped_i i)
  if check_column.has_pipe = true ∧
      (b.height - PLAYER_SIZE / 4 + 1 < check_column.bottom ∨
        check_column.bottom + check_column.gap < b.height + PLAYER_SIZE / 4) then
    { b with dead := true }
  else b

/-- The function `TickDeath`: returns the state it was given and the updated shared variables. -/
def TickDeath (state : Int) (b : Blackboard) : Int × Blackboard :=
  if b.height < 0 ∨ 128 < b.height then
    (state, { b with dead := true, height := 64 })
  else if (b.columns b.curr_column).has_pipe = true ∧
      (b.height < (b.columns b.curr_column).bottom ∨
        (b.columns b.curr_column).bottom + (b.columns b.curr_column).gap < b.height) then
    (state, { b with dead := true })
  else
    (state, forRange (b.frame - PLAYER_SIZE / 2) (b.frame + PLAYER_SIZE / 2 + 1) TickDeath_body
      { b with dead := false })

/-! ## Machine arithmetic -/

/-- Conversion to the 16-bit `int` of the target (two's complement wrap). -/
def wrapInt16 (x : Int) : Int := (x + 32768) % 65536 - 32768

/-- Arithmetic of the 16-bit `unsigned int` of the target. -/
def wrapUInt16 (x : Nat) : Nat := x % 65536

/-- Arithmetic of the 32-bit `unsigned long` of the target. -/
def wrapUInt32 (x : Nat) : Nat := x % 4294967296

/-! ## Input sampling -/

/-- Modelled from the spec: the macro `GetBit` of `helper.h` is not part of the sources at hand;
the specification describes input sampling as a boolean pin-state read (`read_digital(pin)`),
so `GetBit x k` is bit `k` of the register value `x`. -/
def GetBit (x : Nat) (k : Nat) : Bool := x.testBit k

/-! ## TickButtons (lines 272-331) -/

def IDLE : Int := 0
def SET_CONTROL : Int := 1
def SET_JUMP : Int := 2

/-- The function `TickButtons`: the transition switch followed by the state-action switch.
A `state` matching no `case` leaves both switches without effect. -/
def TickButtons (state : Int) (b : Blackboard) : Int × Blackboard :=
  let t : Int × Blackboard :=
    if state = IDLE then
      if GetBit b.PINC 0 = true ∧ GetBit b.PINC 1 = false then
        (SET_CONTROL, { b with control := true })
      else if GetBit b.PINC 1 = true ∧ GetBit b.PINC 0 = false then
        (SET_JUMP, { b with jump := true })
      else (state, b)
    else if state = SET_CONTROL then
      if GetBit b.PINC 0 = true then (SET_CONTROL, b) else (IDLE, b)
    else if state = SET_JUMP then
      if GetBit b.PINC 1 = true then (SET_JUMP, { b with jump := false }) else (IDLE, b)
    else (state, b)
  if t.1 = IDLE then (t.1, { t.2 with control := false, jump := false })
  else if t.1 = SET_CONTROL then (t.1, { t.2 with control := true })
  else t

/-! ## TickMenu (lines 333-431) -/

def PAUSED : Int := 0
def HOLDING_PLAY_RESET : Int := 1
def PLAYING : Int := 2
def RESETTING : Int := 3
def HOLDING_PAUSED : Int := 4

/-- The `static int reset_timer = 30` of `TickMenu`; it is never assigned. -/
def reset_timer : Int := 30

/-- The state action of `RESETTING` (lines 408-423).  `EEPROM_write_score` is recorded in
`eeprom_log`; `write_score` and `scoreboard_init` only drive the LCD. -/
def TickMenu_resetting (b : Blackboard) : Blackboard :=
  let b1 := { b with game_state := GAME_STATE.PLAY }
  let b2 := { b1 with dead := false }
  let b3 := { b2 with game_state := GAME_STATE.RESET }
  let b4 := { b3 with curr_column := 0 }
  let b5 :=
    if b4.score > b4.high_score then
      let b41 := { b4 with high_score := b4.score - 1 }
      { b41 with eeprom_log := b41.eeprom_log ++ [b41.high_score] }
    else b4
  { b5 with score := 0 }

/-- The function `TickMenu`.  `cnt++` is the increment of a signed `int`, which has no defined
result on overflow; it is kept as the mathematical increment. -/
def TickMenu (state : Int) (b : Blackboard) : Int × Blackboard :=
  let t : Int × Blackboard :=
    if state = PAUSED then
      if b.control = true then (HOLDING_PLAY_RESET, b) else (PAUSED, b)
    else if state = HOLDING_PLAY_RESET then
      if b.control = true ∧ b.menu_cnt < reset_timer then (HOLDING_PLAY_RESET, b)
      else if b.control = false ∧ b.menu_cnt < reset_timer then
        (PLAYING, { b with menu_cnt := 0 })
      else if b.menu_cnt = reset_timer then (RESETTING, { b with menu_cnt := 0 })
      else (state, b)
    else if state = PLAYING then
      if b.control = false then ((if b.dead = true then RESETTING else PLAYING), b)
      else (HOLDING_PAUSED, { b with game_state := GAME_STATE.PAUSE })
    else if state = RESETTING then
      (HOLDING_PAUSED, { b with game_state := GAME_STATE.PAUSE })
    else if state = HOLDING_PAUSED then
      if b.control = true then (HOLDING_PAUSED, b) else (PAUSED, b)
    else (state, b)
  if t.1 = PAUSED then (t.1, { t.2 with game_state := GAME_STATE.PAUSE })
  else if t.1 = HOLDING_PLAY_RESET then (t.1, { t.2 with menu_cnt := t.2.menu_cnt + 1 })
  else if t.1 = PLAYING then (t.1, { t.2 with game_state := GAME_STATE.PLAY })
  else if t.1 = RESETTING then (t.1, TickMenu_resetting t.2)
  else t

/-! ## TickPosition (lines 433-534) -/

def FALLING : Int := 0
def JUMPING : Int := 1
def FREEZE : Int := 2
def RESTART : Int := 3

def accel : Nat := 1
def vertical : Nat := 3
def hangtime : Nat := 5
def start_height : Nat := 64
def start_speed : Nat := 0

/-- The function `TickPosition`.  `cnt` and `speed` are `unsigned int`, so `cnt++` and
`speed += accel` wrap at `2^16`; in `height -= speed` and `height += vertical` the `int`
operand is converted to `unsigned int`, the operation wraps, and the result is converted
back to `int`, which is `wrapInt16` of the mathematical result. -/
def TickPosition (state : Int) (b : Blackboard) : Int × Blackboard :=
  let t : Int × Blackboard :=
    if state = FALLING then
      if b.jump = true ∧ b.game_state ≠ GAME_STATE.RESET ∧ b.game_state ≠ GAME_STATE.PAUSE then
        (JUMPING, b)
      else if b.game_state = GAME_STATE.RESET then
        (RESTART, { b with height := (start_height : Int), speed := start_speed })
      else if b.game_state = GAME_STATE.PAUSE then (FREEZE, b)
      else (FALLING, b)
    else if state = JUMPING then
      if b.pos_cnt < hangtime ∧ b.game_state ≠ GAME_STATE.RESET ∧
          b.game_state ≠ GAME_STATE.PAUSE ∧ b.dead = false then
        (JUMPING, { b with pos_cnt := if b.jump = true then 0 else b.pos_cnt })
      else if b.pos_cnt = hangtime ∧ b.game_state ≠ GAME_STATE.RESET then
        (FALLING, { b with speed := start_speed, pos_cnt := 0 })
      else if b.game_state = GAME_STATE.PAUSE then (FREEZE, b)
      else if b.game_state = GAME_STATE.RESET then
        (RESTART, { b with height := (start_height : Int), speed := start_speed, pos_cnt := 0 })
      else (state, b)
    else if state = FREEZE then
      if b.game_state = GAME_STATE.PLAY then
        ((if b.pos_cnt ≠ 0 then JUMPING else FALLING), b)
      else if b.game_state = GAME_STATE.PAUSE then (FREEZE, b)
      else if b.game_state = GAME_STATE.RESET then (RESTART, b)
      else (state, b)
    else if state = RESTART then
      (FREEZE, { b with height := (start_height : Int), speed := start_speed })
    else (state, b)
  if t.1 = FALLING then
    let b1 := { t.2 with speed := wrapUInt16 (t.2.speed + accel) }
    (t.1, { b1 with height := wrapInt16 (b1.height - (b1.speed : Int)) })
  else if t.1 = JUMPING then
    let b1 := { t.2 with pos_cnt := wrapUInt16 (t.2.pos_cnt + 1) }
    (t.1, { b1 with height := wrapInt16 (b1.height + (vertical : Int)) })
  else t

/-! ## Level store: create_level, refresh_pipe (lines 70-101) -/

/-- A call of the C library function `rand()`: the next value of the sequence. -/
def rand (b : Blackboard) : Nat × Blackboard :=
  (b.rand_seq b.rand_calls, { b with rand_calls := b.rand_calls + 1 })

/-- The assignment `columns[i] = c`. -/
def setColumn (cols : Int → column) (i : Int) (c : column) : Int → column :=
  fun k => if k = i then c else cols k

/-- Body of the loop of `create_level` (lines 77-89), with `max = 86`, `min = 10`,
`range = max - min + 1`. -/
def create_level_body (i : Int) (b : Blackboard) : Blackboard :=
  let max : Int := 86
  let min : Int := 10
  let range : Int := max - min + 1
  if Int.tmod i PIPE_SPACING = 0 ∧ i ≠ 0 then
    let b1 := { b with columns := setColumn b.columns i { b.columns i with has_pipe := true } }
    let r := rand b1
    { r.2 with columns :=
        setColumn r.2.columns i { r.2.columns i with bottom := Int.tmod (r.1 : Int) range + min } }
  else if i = 0 then
    { b with columns := setColumn b.columns i { b.columns i with has_pipe := false } }
  else
    let b1 := { b with columns := setColumn b.columns i { b.columns i with has_pipe := false } }
    { b1 with columns := setColumn b1.columns i { b1.columns i with bottom := -1 } }

/-- The function `create_level`. -/
def create_level (b : Blackboard) : Blackboard :=
  forRange 0 LEVEL_SIZE create_level_body b

/-- The function `refresh_pipe`. -/
def refresh_pipe (i : Int) (b : Blackboard) : Blackboard :=
  let max : Int := 86
  let min : Int := 10
  let range : Int := max - min + 1
  let k := i - PLAYER_OFFSET
  let b1 := { b with columns := setColumn b.columns k { b.columns k with has_pipe := true } }
  let r := rand b1
  { r.2 with columns :=
      setColumn r.2.columns k { r.2.columns k with bottom := Int.tmod (r.1 : Int) range + min } }

/-! ## TickLevel (lines 536-579) -/

def STOP : Int := 0
def GO : Int := 1

/-- The function `TickLevel`.  `%` is the truncating remainder of C; `score++` is the
increment of a signed `int` and is kept as the mathematical increment. -/
def TickLevel (state : Int) (b : Blackboard) : Int × Blackboard :=
  let b0 := { b with frame := b.level_i }
  let t : Int × Blackboard :=
    if state = STOP then
      if b0.game_state = GAME_STATE.PLAY then (GO, b0)
      else
        (STOP, { b0 with level_i := if b0.game_state = GAME_STATE.RESET then 0 else b0.level_i })
    else if state = GO then
      if b0.game_state = GAME_STATE.PLAY then
        let b1 :=
          if Int.tmod b0.level_i PIPE_SPACING = 1 ∧ b0.level_i ≠ 0 then
            { b0 with score := b0.score + 1 }
          else b0
        let b2 :=
          if Int.tmod b1.level_i PIPE_SPACING = PIPE_SPACING - 1 ∧ b1.level_i ≠ 0 then
            refresh_pipe b1.level_i b1
          else b1
        (state, { b2 with level_i := if b2.level_i < LEVEL_SIZE - 1 then b2.level_i + 1 else 0 })
      else
        (STOP, { b0 with level_i := if b0.game_state = GAME_STATE.RESET then 0 else b0.level_i })
    else (state, b0)
  (t.1, { t.2 with curr_column := t.2.level_i })

/-! ## TickDraw (lines 236-270) -/

def SETUP : Int := 0
def DRAW : Int := 1

/-- The function `TickDraw`, reduced to its effect on the program variables: `SETUP` calls
`create_level`; everything else in it drives the display. -/
def TickDraw (state : Int) (b : Blackboard) : Int × Blackboard :=
  if state = SETUP then (DRAW, create_level b)
  else if state = DRAW then ((if b.game_state ≠ GAME_STATE.RESET then DRAW else SETUP), b)
  else (state, b)

/-! ## Scheduler (lines 612-637) -/

/-- The record `task`: `state` is an `unsigned int`, `period` and `elapsedTime` are
`unsigned long`, `TickFct` is the tick function. -/
structure task where
  state : Nat
  period : Nat
  elapsedTime : Nat
  TickFct : Int → Blackboard → Int × Blackboard

def TASK1_PERIOD : Nat := 100
def TASK2_PERIOD : Nat := 100

/-- Modelled from the spec: the function `findGCD` of `helper.h` is not part of the sources at
hand; the specification defines the base period as the greatest common divisor of the task
periods. -/
def findGCD (a b : Nat) : Nat := Nat.gcd a b

def GCD_PERIOD : Nat := findGCD TASK1_PERIOD TASK2_PERIOD

def NUM_TASKS : Nat := 6

/-- Body of the loop of `TimerISR` for one entry of `tasks` (lines 631-635).  The third
component tells whether `TickFct` was called. -/
def TimerISR_body (t : task) (b : Blackboard) : task × Blackboard × Bool :=
  let r : task × Blackboard × Bool :=
    if t.elapsedTime = t.period then
      let n := t.TickFct (wrapInt16 (t.state : Int)) b
      ({ t with state := (n.1 % 65536).toNat, elapsedTime := 0 }, n.2, true)
    else (t, b, false)
  ({ r.1 with elapsedTime := wrapUInt32 (r.1.elapsedTime + GCD_PERIOD) }, r.2.1, r.2.2)

/-- The function `TimerISR`: the loop over the task array (the list holds its `NUM_TASKS`
entries) in increasing index order.  The result holds the updated array, the updated shared variables, and for each index whether the
tick function of that task was called during this call of `TimerISR`. -/
def TimerISR : List task → Blackboard → List task × Blackboard × List Bool
  | [], b => ([], b, [])
  | t :: ts, b =>
    let r := TimerISR_body t b
    let rs := TimerISR ts r.2.1
    (r.1 :: rs.1, rs.2.1, r.2.2 :: rs.2.2)

/-- The task array and shared variables after `n` successive calls of `TimerISR`. -/
def TimerISR_after : Nat → List task × Blackboard → List task × Blackboard
  | 0, s => s
  | n + 1, s =>
    let r := TimerISR (TimerISR_after n s).1 (TimerISR_after n s).2
    (r.1, r.2.1)

/-- Whether call number `n + 1` of `TimerISR` (counting from the configuration `s`) calls the
tick function of the task at index `i`. -/
def firesInCall (s : List task × Blackboard) (n i : Nat) : Bool :=
  ((TimerISR (TimerISR_after n s).1 (TimerISR_after n s).2).2.2.getD i false)

/-- The shared variables at the moment the loop of `TimerISR`, started on the array `ts` and
the variables `b`, reaches index `i`: the variables as the entries `0 .. i - 1` have left
them. -/
def boardBefore (ts : List task) (b : Blackboard) (i : Nat) : Blackboard :=
  (TimerISR (ts.take i) b).2.1

/-! ## The task table built by `main` (lines 657-691) -/

def CHECK : Int := 0

/-- The array `tasks` as `main` fills it, index `0` first. -/
def main_tasks : List task :=
  [ { period := TASK1_PERIOD, state := IDLE.toNat, elapsedTime := 0, TickFct := TickButtons },
    { period := TASK1_PERIOD, state := RESTART.toNat, elapsedTime := 0, TickFct := TickPosition },
    { period := TASK1_PERIOD, state := CHECK.toNat, elapsedTime := 0, TickFct := TickDeath },
    { period := TASK1_PERIOD, state := PAUSED.toNat, elapsedTime := 0, TickFct := TickMenu },
    { period := TASK1_PERIOD, state := STOP.toNat, elapsedTime := 0, TickFct := TickLevel },
    { period := TASK2_PERIOD, state := SETUP.toNat, elapsedTime := 0, TickFct := TickDraw } ]

/-! ## Tick sequences

Each driver runs one task for `n` ticks; before tick `j + 1` the variables written by the
other tasks (the inputs of the task) are set to the values given for index `j`. -/

/-- TickButtons for `n` ticks, tick `j + 1` sampling the register value `pin j`. -/
def buttonsAfter (pin : Nat → Nat) : Nat → Int × Blackboard → Int × Blackboard
  | 0, s => s
  | j + 1, s =>
    TickButtons (buttonsAfter pin j s).1 { (buttonsAfter pin j s).2 with PINC := pin j }

/-- TickMenu for `n` ticks, tick `j + 1` reading `control = ctl j` and `dead = dd j`. -/
def menuAfter (ctl dd : Nat → Bool) : Nat → Int × Blackboard → Int × Blackboard
  | 0, s => s
  | j + 1, s =>
    TickMenu (menuAfter ctl dd j s).1 { (menuAfter ctl dd j s).2 with control := ctl j, dead := dd j }

/-- TickPosition for `n` ticks, tick `j + 1` reading `game_state = gs j`, `jump = jp j` and
`dead = dd j`. -/
def positionAfter (gs : Nat → GAME_STATE) (jp dd : Nat → Bool) :
    Nat → Int × Blackboard → Int × Blackboard
  | 0, s => s
  | j + 1, s =>
    TickPosition (positionAfter gs jp dd j s).1
      { (positionAfter gs jp dd j s).2 with game_state := gs j, jump := jp j, dead := dd j }

/-- TickLevel for `n` ticks, tick `j + 1` reading `game_state = gs j`. -/
def levelAfter (gs : Nat → GAME_STATE) : Nat → Int × Blackboard → Int × Blackboard
  | 0, s => s
  | j + 1, s =>
    TickLevel (levelAfter gs j s).1 { (levelAfter gs j s).2 with game_state := gs j }

/-! ## Reachable configurations of the level store -/

/-- Configurations of the level store and of the cursor that the program reaches.  It starts
with default-constructed columns and the cursor `i` at `0`; then `create_level` is called (by
`main`), `TickLevel` and `TickDraw` are ticked from any state, and the other tasks change
variables other than `columns` and the cursor. -/
inductive Reachable : Blackboard → Prop
  | start (b : Blackboard) :
      (∀ k : Int, 0 ≤ k → k < LEVEL_SIZE → b.columns k = {}) → b.level_i = 0 → Reachable b
  | create (b : Blackboard) : Reachable b → Reachable (create_level b)
  | tickLevel (state : Int) (b : Blackboard) : Reachable b → Reachable (TickLevel state b).2
  | tickDraw (state : Int) (b : Blackboard) : Reachable b → Reachable (TickDraw state b).2
  | other (b c : Blackboard) :
      Reachable b → c.columns = b.columns → c.level_i = b.level_i → Reachable c

/-! ## Sample configurations used to instantiate the theorems -/

/-- A level store in which every column is free (the `struct column` defaults). -/
def emptyColumns : Int → column := fun _ => {}

/-- A start-up configuration: the zero-initialised globals, `height = 64`,
an empty level store, a generator that always returns `0`. -/
def sampleBoard : Blackboard where
  PINC := 0
  control := false
  jump := false
  game_state := GAME_STATE.PAUSE
  height := 64
  dead := false
  curr_column := 0
  score := 0
  frame := 0
  high_score := 0
  columns := emptyColumns
  menu_cnt := 0
  pos_cnt := 0
  speed := 0
  level_i := 0
  rand_seq := fun _ => 0
  rand_calls := 0
  eeprom_log := []

/-- The scenario of the specification: an obstacle with `bottom = 20`,
`gap = 32` at the current column and `height = 10`. -/
def scenarioBoard : Blackboard :=
  { sampleBoard with
    height := 10
    columns := fun k => if k = 0 then { has_pipe := true, gap := 32, bottom := 20 } else {} }

/-- A configuration in play with `height = 64`: the cursor has moved from 30 to 31, the current
column (index 31) is free and column 32 holds an obstacle with `bottom = 80`. -/
def bandBoard : Blackboard :=
  { sampleBoard with
    game_state := GAME_STATE.PLAY
    frame := 30
    curr_column := 31
    level_i := 31
    columns := fun k => if k = 32 then { has_pipe := true, gap := 32, bottom := 80 } else {} }

/-- The level after the start-up call of `create_level` and two `TickLevel` ticks in play: the
task has left `STOP` and the cursor has moved from 0 to 1. -/
def firstStepsBoard : Blackboard :=
  (levelAfter (fun _ => GAME_STATE.PLAY) 2 (STOP, create_level sampleBoard)).2

/-- The level after the start-up call of `create_level`, 33 `TickLevel` ticks in play (the
cursor has passed position 31, where `refresh_pipe` regenerates column 0) and a `TickDraw` tick
in `SETUP`, which calls `create_level` again. -/
def recreatedBoard : Blackboard :=
  (TickDraw SETUP (levelAfter (fun _ => GAME_STATE.PLAY) 33 (STOP, create_level sampleBoard)).2).2

/-- Phase inputs of a reset requested while the game is paused in mid-jump: tick 1 under
`PAUSE`, ticks 2 and 3 under `PLAY`, tick 4 under `PAUSE`, tick 5 under `RESET`, tick 6 under
`PAUSE`, tick 7 under `PLAY` (index `j` is tick `j + 1`). -/
def pausedResetPhase (j : Nat) : GAME_STATE :=
  if j = 1 ∨ j = 2 ∨ j = 6 then GAME_STATE.PLAY
  else if j = 4 then GAME_STATE.RESET
  else GAME_STATE.PAUSE

/-- Jump inputs of the same run: one impulse, on tick 3. -/
def pausedResetJump (j : Nat) : Bool := decide (j = 2)

/-- The start-up configuration with the control button held (bit 0 of `PINC` set). -/
def pressedBoard : Blackboard := { sampleBoard with PINC := 1 }

/-! ## Theorems -/

/-! ### TickDeath -/

theorem wrapped_i_eq_emod (i : Int) (h1 : -LEVEL_SIZE ≤ i) (h2 : i < 2 * LEVEL_SIZE) :
    wrapped_i i = i % LEVEL_SIZE := by
  unfold wrapped_i LEVEL_SIZE at *
  split_ifs <;> omega

theorem TickDeath_body_frame (i : Int) (b : Blackboard) :
    (TickDeath_body i b).columns = b.columns ∧ (TickDeath_body i b).height = b.height := by
  unfold TickDeath_body
  dsimp only
  split_ifs <;> exact ⟨rfl, rfl⟩

theorem TickDeath_body_dead (i : Int) (b : Blackboard) :
    (TickDeath_body i b).dead = true ↔ b.dead = true ∨
      ((b.columns (wrapped_i i)).has_pipe = true ∧
        (b.height - 1 < (b.columns (wrapped_i i)).bottom ∨
          (b.columns (wrapped_i i)).bottom + (b.columns (wrapped_i i)).gap < b.height + 2)) := by
  have h4 : PLAYER_SIZE / 4 = 2 := by decide
  unfold TickDeath_body
  dsimp only
  rw [h4]
  have e : b.height - 2 + 1 = b.height - 1 := by ring
  rw [e]
  split_ifs with h
  · simp [h]
  · simp [h]

theorem scan_foldl (lo : Int) (l : List Nat) (b : Blackboard) :
    (l.foldl (fun (acc : Blackboard) (k : Nat) => TickDeath_body (lo + (k : Int)) acc) b).columns = b.columns ∧
    (l.foldl (fun (acc : Blackboard) (k : Nat) => TickDeath_body (lo + (k : Int)) acc) b).height = b.height ∧
    ((l.foldl (fun (acc : Blackboard) (k : Nat) => TickDeath_body (lo + (k : Int)) acc) b).dead = true ↔
      b.dead = true ∨ ∃ k ∈ l,
        (b.columns (wrapped_i (lo + (k : Int)))).has_pipe = true ∧
        (b.height - 1 < (b.columns (wrapped_i (lo + (k : Int)))).bottom ∨
          (b.columns (wrapped_i (lo + (k : Int)))).bottom +
            (b.columns (wrapped_i (lo + (k : Int)))).gap < b.height + 2)) := by
  induction l generalizing b with
  | nil => simp
  | cons a t ih =>
    rw [List.foldl_cons]
    obtain ⟨hc, hh, hd⟩ := ih (TickDeath_body (lo + (a : Int)) b)
    obtain ⟨fc, fh⟩ := TickDeath_body_frame (lo + (a : Int)) b
    refine ⟨hc.trans fc, hh.trans fh, ?_⟩
    rw [hd, TickDeath_body_dead, fc, fh]
    simp only [List.mem_cons, exists_eq_or_imp, or_assoc]

/-- C1: after a `TickDeath` tick with `frame` in `[0, 128)`, `dead` is true if and only if
(a) `height < 0` or `height > 128`, or (b) the current column has an obstacle and
`height < bottom` or `bottom + gap < height`, or (c) some column of the band
`frame - 5 .. frame + 5` (index taken modulo `LEVEL_SIZE`) has an obstacle with
`height - 1 < bottom` or `bottom + gap < height + 2`; `dead` is false otherwise.  The scenario
`bottom = 20`, `gap = 32`, `height = 10` at the current column gives `dead = true`. -/
theorem C1_TickDeath_dead_iff :
    (∀ (state : Int) (b : Blackboard), 0 ≤ b.frame → b.frame < LEVEL_SIZE →
      ((TickDeath state b).2.dead = true ↔
        ((b.height < 0 ∨ 128 < b.height) ∨
         ((b.columns b.curr_column).has_pipe = true ∧
            (b.height < (b.columns b.curr_column).bottom ∨
              (b.columns b.curr_column).bottom + (b.columns b.curr_column).gap < b.height)) ∨
         (∃ i : Int, b.frame - 5 ≤ i ∧ i ≤ b.frame + 5 ∧
            (b.columns (i % LEVEL_SIZE)).has_pipe = true ∧
            (b.height - 1 < (b.columns (i % LEVEL_SIZE)).bottom ∨
              (b.columns (i % LEVEL_SIZE)).bottom + (b.columns (i % LEVEL_SIZE)).gap
                < b.height + 2))))) ∧
    (∀ (state : Int) (b : Blackboard),
      (b.columns b.curr_column).has_pipe = true →
      (b.columns b.curr_column).bottom = 20 →
      (b.columns b.curr_column).gap = 32 →
      b.height = 10 →
      (TickDeath state b).2.dead = true) := by
  have main : ∀ (state : Int) (b : Blackboard), 0 ≤ b.frame → b.frame < LEVEL_SIZE →
      ((TickDeath state b).2.dead = true ↔
        ((b.height < 0 ∨ 128 < b.height) ∨
         ((b.columns b.curr_column).has_pipe = true ∧
            (b.height < (b.columns b.curr_column).bottom ∨
              (b.columns b.curr_column).bottom + (b.columns b.curr_column).gap < b.height)) ∨
         (∃ i : Int, b.frame - 5 ≤ i ∧ i ≤ b.frame + 5 ∧
            (b.columns (i % LEVEL_SIZE)).has_pipe = true ∧
            (b.height - 1 < (b.columns (i % LEVEL_SIZE)).bottom ∨
              (b.columns (i % LEVEL_SIZE)).bottom + (b.columns (i % LEVEL_SIZE)).gap
                < b.height + 2)))) := by
    intro state b hf0 hf1
    have hL : LEVEL_SIZE = 128 := rfl
    rw [hL] at hf1
    unfold TickDeath
    split_ifs with ha hb
    · simp only [true_iff]
      exact Or.inl ha
    · simp only [true_iff]
      exact Or.inr (Or.inl hb)
    · have h2 : PLAYER_SIZE / 2 = 5 := by decide
      rw [h2]
      have hn : (b.frame + 5 + 1 - (b.frame - 5)).toNat = 11 := by
        have : b.frame + 5 + 1 - (b.frame - 5) = 11 := by ring
        rw [this]; rfl
      unfold forRange
      rw [hn]
      rw [(scan_foldl (b.frame - 5) (List.range 11) { b with dead := false }).2.2]
      simp only [Bool.false_eq_true, false_or, List.mem_range]
      constructor
      · rintro ⟨k, hk, hp⟩
        refine Or.inr (Or.inr ⟨b.frame - 5 + (k : Int), by omega, by omega, ?_⟩)
        rw [← wrapped_i_eq_emod _ (by rw [hL]; omega) (by rw [hL]; omega)]
        exact hp
      · rintro (h | h | ⟨i, hi1, hi2, hp⟩)
        · exact absurd h ha
        · exact absurd h hb
        · refine ⟨(i - (b.frame - 5)).toNat, by omega, ?_⟩
          have e : b.frame - 5 + (((i - (b.frame - 5)).toNat : Nat) : Int) = i := by omega
          rw [e, wrapped_i_eq_emod _ (by rw [hL]; omega) (by rw [hL]; omega)]
          exact hp
  refine ⟨main, ?_⟩
  intro state b hp hb hg hh
  unfold TickDeath
  have h1 : ¬ (b.height < 0 ∨ 128 < b.height) := by omega
  have h2 : (b.columns b.curr_column).has_pipe = true ∧
      (b.height < (b.columns b.curr_column).bottom ∨
        (b.columns b.curr_column).bottom + (b.columns b.curr_column).gap < b.height) :=
    ⟨hp, Or.inl (by omega)⟩
  rw [if_neg h1, if_pos h2]

/-- Instance of C1 at the scenario of the specification. -/
theorem C1_TickDeath_dead_iff_witness :
    (0 ≤ scenarioBoard.frame ∧ scenarioBoard.frame < LEVEL_SIZE) ∧
    (TickDeath 0 scenarioBoard).2.dead = true ∧
    (TickDeath 0 sampleBoard).2.dead = false :=
  ⟨⟨by decide, by decide⟩,
   C1_TickDeath_dead_iff.2 0 scenarioBoard rfl rfl rfl rfl,
   by
    have h := (C1_TickDeath_dead_iff.1 0 sampleBoard (by decide) (by decide)).not
    rw [Bool.not_eq_true] at h
    rw [h]
    simp [sampleBoard, emptyColumns]⟩

/-! ### TimerISR -/

theorem GCD_PERIOD_pos : 0 < GCD_PERIOD := by decide

theorem TimerISR_body_spec (t : task) (b : Blackboard) :
    (TimerISR_body t b).2.2 = decide (t.elapsedTime = t.period) ∧
    (TimerISR_body t b).1.period = t.period ∧
    (TimerISR_body t b).1.elapsedTime =
      wrapUInt32 ((if t.elapsedTime = t.period then 0 else t.elapsedTime) + GCD_PERIOD) := by
  unfold TimerISR_body
  by_cases h : t.elapsedTime = t.period
  · simp [h]
  · simp [h]

theorem TimerISR_fired (ts : List task) (b : Blackboard) :
    (TimerISR ts b).2.2 = ts.map (fun t => decide (t.elapsedTime = t.period)) := by
  induction ts generalizing b with
  | nil => rfl
  | cons t ts ih =>
    simp only [TimerISR, List.map_cons]
    rw [ih, (TimerISR_body_spec t b).1]

theorem TimerISR_task (ts : List task) (b : Blackboard) (i : Nat) (t : task)
    (h : ts[i]? = some t) :
    ∃ u, (TimerISR ts b).1[i]? = some u ∧ u.period = t.period ∧
      u.elapsedTime =
        wrapUInt32 ((if t.elapsedTime = t.period then 0 else t.elapsedTime) + GCD_PERIOD) := by
  induction ts generalizing b i with
  | nil => simp at h
  | cons a ts ih =>
    cases i with
    | zero =>
      simp only [List.getElem?_cons_zero, Option.some.injEq] at h
      subst h
      refine ⟨(TimerISR_body a b).1, by simp [TimerISR], ?_, ?_⟩
      · exact (TimerISR_body_spec a b).2.1
      · exact (TimerISR_body_spec a b).2.2
    | succ j =>
      simp only [List.getElem?_cons_succ] at h
      obtain ⟨u, hu, hp, he⟩ := ih (TimerISR_body a b).2.1 j h
      exact ⟨u, by simpa [TimerISR] using hu, hp, he⟩

theorem succ_mod_cases (n k : Nat) (hk : 0 < k) :
    (n % k + 1 < k ∧ (n + 1) % k = n % k + 1) ∨ (n % k + 1 = k ∧ (n + 1) % k = 0) := by
  have hlt : n % k < k := Nat.mod_lt n hk
  rcases Nat.lt_or_ge (n % k + 1) k with h | h
  · left
    refine ⟨h, ?_⟩
    rw [Nat.add_mod, Nat.mod_eq_of_lt (a := 1) (by omega), Nat.mod_eq_of_lt h]
  · right
    have e : n % k + 1 = k := by omega
    refine ⟨e, ?_⟩
    rw [Nat.add_mod]
    by_cases h1 : k = 1
    · subst h1; omega
    · rw [Nat.mod_eq_of_lt (a := 1) (by omega), e, Nat.mod_self]

/-- Elapsed time of a task of period `k * GCD_PERIOD` after `n` calls of `TimerISR`. -/
theorem TimerISR_after_task (ts : List task) (b : Blackboard) (i k : Nat) (t : task)
    (h : ts[i]? = some t) (hk : 1 ≤ k) (hp : t.period = k * GCD_PERIOD)
    (hlt : t.period < 4294967296) (he : t.elapsedTime = 0) (n : Nat) :
    ∃ u, (TimerISR_after n (ts, b)).1[i]? = some u ∧ u.period = t.period ∧
      u.elapsedTime =
        (if n = 0 then 0 else if n % k = 0 then k else n % k) * GCD_PERIOD := by
  induction n with
  | zero => exact ⟨t, h, rfl, by simp [he]⟩
  | succ n ih =>
    obtain ⟨u, hu, hup, hue⟩ := ih
    obtain ⟨v, hv, hvp, hve⟩ := TimerISR_task _ (TimerISR_after n (ts, b)).2 i u hu
    refine ⟨v, by simpa [TimerISR_after] using hv, hvp.trans hup, ?_⟩
    rw [hve, hue, hup, hp]
    have hG := GCD_PERIOD_pos
    have hmod : n % k < k := Nat.mod_lt n hk
    rw [hp] at hlt
    simp only [Nat.succ_ne_zero, if_false, Nat.add_one_ne_zero]
    unfold wrapUInt32
    by_cases h0 : n = 0
    · subst h0
      have hk0 : ¬ (0 = k * GCD_PERIOD) := by
        have : 0 < k * GCD_PERIOD := Nat.mul_pos hk hG
        omega
      simp only [if_true, Nat.zero_mul, if_neg hk0, Nat.zero_add]
      have hle : GCD_PERIOD ≤ k * GCD_PERIOD := Nat.le_mul_of_pos_left _ hk
      rw [Nat.mod_eq_of_lt (by omega)]
      by_cases h1 : k = 1
      · subst h1; simp
      · rw [Nat.mod_eq_of_lt (a := 1) (by omega)]; simp
    · simp only [if_neg h0]
      rcases succ_mod_cases n k hk with ⟨hs, hs2⟩ | ⟨hs, hs2⟩
      · by_cases hz : n % k = 0
        · simp only [hz, if_true]
          rw [hs2, hz]
          simp only [Nat.zero_add, Nat.one_ne_zero, if_false, Nat.one_mul]
          have hle : GCD_PERIOD ≤ k * GCD_PERIOD := Nat.le_mul_of_pos_left _ hk
          exact Nat.mod_eq_of_lt (by omega)
        · simp only [if_neg hz]
          have hne : ¬ (n % k * GCD_PERIOD = k * GCD_PERIOD) := by
            intro e
            have := Nat.eq_of_mul_eq_mul_right hG e
            omega
          rw [if_neg hne, hs2, if_neg (by omega)]
          have hle : (n % k + 1) * GCD_PERIOD ≤ k * GCD_PERIOD :=
            Nat.mul_le_mul_right _ (by omega)
          have e2 : n % k * GCD_PERIOD + GCD_PERIOD = (n % k + 1) * GCD_PERIOD := by ring
          rw [e2]
          exact Nat.mod_eq_of_lt (by omega)
      · by_cases h1 : k = 1
        · subst h1
          have hz : n % 1 = 0 := Nat.mod_one n
          simp only [hz, if_true, Nat.one_mul]
          rw [hs2]
          simp only [if_true, Nat.zero_add, Nat.one_mul]
          exact Nat.mod_eq_of_lt (by omega)
        · have hz : ¬ (n % k = 0) := by omega
          simp only [if_neg hz]
          have hne : ¬ (n % k * GCD_PERIOD = k * GCD_PERIOD) := by
            intro e
            have := Nat.eq_of_mul_eq_mul_right hG e
            omega
          rw [if_neg hne, hs2]
          simp only [if_true]
          have e2 : n % k * GCD_PERIOD + GCD_PERIOD = (n % k + 1) * GCD_PERIOD := by ring
          rw [e2, hs]
          exact Nat.mod_eq_of_lt (by omega)

/-- The loop body applies the tick function to the task's state and to the shared variables
exactly when `elapsedTime` equals the period, and then restarts `elapsedTime`; otherwise it
leaves the state and the shared variables untouched and only advances `elapsedTime`. -/
theorem TimerISR_body_apply (t : task) (b : Blackboard) :
    (t.elapsedTime = t.period →
      TimerISR_body t b =
        ({ t with state := ((t.TickFct (wrapInt16 (t.state : Int)) b).1 % 65536).toNat,
                  elapsedTime := wrapUInt32 (0 + GCD_PERIOD) },
          (t.TickFct (wrapInt16 (t.state : Int)) b).2, true)) ∧
    (t.elapsedTime ≠ t.period →
      TimerISR_body t b =
        ({ t with elapsedTime := wrapUInt32 (t.elapsedTime + GCD_PERIOD) }, b, false)) := by
  constructor
  · intro h
    unfold TimerISR_body
    rw [if_pos h]
  · intro h
    unfold TimerISR_body
    rw [if_neg h]

theorem boardBefore_zero (ts : List task) (b : Blackboard) : boardBefore ts b 0 = b := rfl

theorem boardBefore_cons (a : task) (rest : List task) (b : Blackboard) (j : Nat) :
    boardBefore (a :: rest) b (j + 1) = boardBefore rest (TimerISR_body a b).2.1 j := rfl

theorem boardBefore_length (ts : List task) (b : Blackboard) :
    (TimerISR ts b).2.1 = boardBefore ts b ts.length := by
  unfold boardBefore
  rw [List.take_length]

/-- What a call of `TimerISR` does at index `i`: it runs the loop body on the task found there
and on the shared variables as the earlier entries have left them. -/
theorem TimerISR_at (ts : List task) (b : Blackboard) (i : Nat) (t : task)
    (h : ts[i]? = some t) :
    (TimerISR ts b).1[i]? = some (TimerISR_body t (boardBefore ts b i)).1 ∧
    (TimerISR ts b).2.2.getD i false = (TimerISR_body t (boardBefore ts b i)).2.2 ∧
    boardBefore ts b (i + 1) = (TimerISR_body t (boardBefore ts b i)).2.1 := by
  induction ts generalizing b i with
  | nil => simp at h
  | cons a rest ih =>
    cases i with
    | zero =>
      simp only [List.getElem?_cons_zero, Option.some.injEq] at h
      subst h
      rw [boardBefore_zero]
      refine ⟨?_, ?_, rfl⟩
      · simp only [TimerISR, List.getElem?_cons_zero]
      · simp only [TimerISR, List.getD_cons_zero]
    | succ j =>
      simp only [List.getElem?_cons_succ] at h
      obtain ⟨h1, h2, h3⟩ := ih (TimerISR_body a b).2.1 j h
      rw [boardBefore_cons, boardBefore_cons]
      refine ⟨?_, ?_, h3⟩
      · simp only [TimerISR, List.getElem?_cons_succ]
        exact h1
      · simp only [TimerISR, List.getD_cons_succ]
        exact h2

/-- A call of `TimerISR` at index `i`, by cases on whether the task is due. -/
theorem TimerISR_step (ts : List task) (b : Blackboard) (i : Nat) (t : task)
    (h : ts[i]? = some t) :
    (t.elapsedTime = t.period →
      (TimerISR ts b).2.2.getD i false = true ∧
      (TimerISR ts b).1[i]? = some
        { t with
          state := ((t.TickFct (wrapInt16 (t.state : Int)) (boardBefore ts b i)).1 % 65536).toNat,
          elapsedTime := wrapUInt32 (0 + GCD_PERIOD) } ∧
      boardBefore ts b (i + 1) = (t.TickFct (wrapInt16 (t.state : Int)) (boardBefore ts b i)).2) ∧
    (t.elapsedTime ≠ t.period →
      (TimerISR ts b).2.2.getD i false = false ∧
      (TimerISR ts b).1[i]? = some
        { t with elapsedTime := wrapUInt32 (t.elapsedTime + GCD_PERIOD) } ∧
      boardBefore ts b (i + 1) = boardBefore ts b i) := by
  obtain ⟨h1, h2, h3⟩ := TimerISR_at ts b i t h
  obtain ⟨a1, a2⟩ := TimerISR_body_apply t (boardBefore ts b i)
  constructor
  · intro e
    rw [h1, h2, h3, a1 e]
    exact ⟨rfl, rfl, rfl⟩
  · intro e
    rw [h1, h2, h3, a2 e]
    exact ⟨rfl, rfl, rfl⟩

/-- A task of period `k * GCD_PERIOD` whose `elapsedTime` starts at `0` keeps its tick function,
and is due at the start of call `n + 1` exactly when `n + 1 = m * k + 1` for some `m ≥ 1`. -/
theorem TimerISR_after_due (ts : List task) (b : Blackboard) (i k : Nat) (t : task)
    (h : ts[i]? = some t) (hk : 1 ≤ k) (hp : t.period = k * GCD_PERIOD)
    (hlt : t.period < 4294967296) (he : t.elapsedTime = 0) (n : Nat) :
    ∃ u, (TimerISR_after n (ts, b)).1[i]? = some u ∧ u.TickFct = t.TickFct ∧
      (u.elapsedTime = u.period ↔ ∃ m, 1 ≤ m ∧ n + 1 = m * k + 1) := by
  have fct : ∀ n : Nat, ∃ u, (TimerISR_after n (ts, b)).1[i]? = some u ∧
      u.TickFct = t.TickFct := by
    intro n
    induction n with
    | zero => exact ⟨t, h, rfl⟩
    | succ n ih =>
      obtain ⟨u, hu, hf⟩ := ih
      obtain ⟨s1, s2⟩ := TimerISR_step _ (TimerISR_after n (ts, b)).2 i u hu
      by_cases e : u.elapsedTime = u.period
      · exact ⟨_, (s1 e).2.1, hf⟩
      · exact ⟨_, (s2 e).2.1, hf⟩
  obtain ⟨u, hu, hf⟩ := fct n
  obtain ⟨v, hv, hvp, hve⟩ := TimerISR_after_task ts b i k t h hk hp hlt he n
  have huv : v = u := by
    rw [hu] at hv
    exact (Option.some.inj hv).symm
  subst huv
  refine ⟨v, hu, hf, ?_⟩
  rw [hve, hvp, hp]
  have hG := GCD_PERIOD_pos
  have hmod : n % k < k := Nat.mod_lt n hk
  constructor
  · intro e
    have e2 := Nat.eq_of_mul_eq_mul_right hG e
    by_cases h0 : n = 0
    · rw [if_pos h0] at e2; omega
    · rw [if_neg h0] at e2
      by_cases hz : n % k = 0
      · obtain ⟨m, hm⟩ := Nat.dvd_of_mod_eq_zero hz
        refine ⟨m, ?_, by rw [hm, Nat.mul_comm]⟩
        rcases Nat.eq_zero_or_pos m with h | h
        · subst h; simp at hm; exact absurd hm h0
        · exact h
      · rw [if_neg hz] at e2; omega
  · rintro ⟨m, hm, e⟩
    have en : n = m * k := by omega
    have hn0 : n ≠ 0 := by
      rw [en]
      exact Nat.mul_ne_zero (by omega) (by omega)
    have hz : n % k = 0 := by rw [en]; exact Nat.mul_mod_left m k
    rw [if_neg hn0, if_pos hz]

/-- C2: for a task whose period is a positive multiple `k * GCD_PERIOD` (fitting the 32-bit
`unsigned long`) and whose `elapsedTime` starts at `0`, call number `n + 1` of `TimerISR`
applies the task's tick function, to the task's state and to the shared variables as the
earlier entries of the table have left them, storing the returned state and passing on the
returned variables, if `n + 1 = m * k + 1` for some `m ≥ 1` (calls `k + 1`, `2k + 1`, ...; once
in such a call, as the loop visits each entry once); on every other call it leaves the task's
state and the shared variables untouched.  The flag reported by `TimerISR` for the task is true
exactly on the calls `m * k + 1`.  And in no call does `TimerISR` apply the tick function of a
task whose `elapsedTime` is below its period at the start of the call: the state of such a task
and the shared variables pass through unchanged. -/
theorem C2_TimerISR_fires_every_k :
    (∀ (ts : List task) (b : Blackboard) (i k : Nat) (t : task),
      ts[i]? = some t → 1 ≤ k → t.period = k * GCD_PERIOD → t.period < 4294967296 →
      t.elapsedTime = 0 →
      ∀ n : Nat, ∃ u, (TimerISR_after n (ts, b)).1[i]? = some u ∧ u.TickFct = t.TickFct ∧
        ((∃ m, 1 ≤ m ∧ n + 1 = m * k + 1) →
          (TimerISR_after (n + 1) (ts, b)).1[i]?.map task.state =
            some ((t.TickFct (wrapInt16 (u.state : Int))
              (boardBefore (TimerISR_after n (ts, b)).1 (TimerISR_after n (ts, b)).2 i)).1
                % 65536).toNat ∧
          boardBefore (TimerISR_after n (ts, b)).1 (TimerISR_after n (ts, b)).2 (i + 1) =
            (t.TickFct (wrapInt16 (u.state : Int))
              (boardBefore (TimerISR_after n (ts, b)).1 (TimerISR_after n (ts, b)).2 i)).2) ∧
        (¬ (∃ m, 1 ≤ m ∧ n + 1 = m * k + 1) →
          (TimerISR_after (n + 1) (ts, b)).1[i]?.map task.state = some u.state ∧
          boardBefore (TimerISR_after n (ts, b)).1 (TimerISR_after n (ts, b)).2 (i + 1) =
            boardBefore (TimerISR_after n (ts, b)).1 (TimerISR_after n (ts, b)).2 i)) ∧
    (∀ (ts : List task) (b : Blackboard) (i k : Nat) (t : task),
      ts[i]? = some t → 1 ≤ k → t.period = k * GCD_PERIOD → t.period < 4294967296 →
      t.elapsedTime = 0 →
      ∀ n : Nat, (firesInCall (ts, b) n i = true ↔ ∃ m, 1 ≤ m ∧ n + 1 = m * k + 1)) ∧
    (∀ (ts : List task) (b : Blackboard) (i : Nat) (t : task),
      ts[i]? = some t → t.elapsedTime < t.period →
      (TimerISR ts b).2.2.getD i false = false ∧
      (TimerISR ts b).1[i]?.map task.state = some t.state ∧
      boardBefore ts b (i + 1) = boardBefore ts b i) ∧
    (∀ (ts : List task) (b : Blackboard),
      boardBefore ts b 0 = b ∧ (TimerISR ts b).2.1 = boardBefore ts b ts.length) := by
  refine ⟨?_, ?_, ?_, ?_⟩
  · intro ts b i k t h hk hp hlt he n
    obtain ⟨u, hu, hf, hdue⟩ := TimerISR_after_due ts b i k t h hk hp hlt he n
    obtain ⟨s1, s2⟩ := TimerISR_step _ (TimerISR_after n (ts, b)).2 i u hu
    refine ⟨u, hu, hf, ?_, ?_⟩
    · intro hm
      obtain ⟨_, q2, q3⟩ := s1 (hdue.mpr hm)
      rw [← hf]
      refine ⟨?_, q3⟩
      show (TimerISR (TimerISR_after n (ts, b)).1 (TimerISR_after n (ts, b)).2).1[i]?.map
        task.state = _
      rw [q2]
      rfl
    · intro hm
      obtain ⟨_, q2, q3⟩ := s2 (fun e => hm (hdue.mp e))
      refine ⟨?_, q3⟩
      show (TimerISR (TimerISR_after n (ts, b)).1 (TimerISR_after n (ts, b)).2).1[i]?.map
        task.state = _
      rw [q2]
      rfl
  · intro ts b i k t h hk hp hlt he n
    obtain ⟨u, hu, _, hdue⟩ := TimerISR_after_due ts b i k t h hk hp hlt he n
    obtain ⟨s1, s2⟩ := TimerISR_step _ (TimerISR_after n (ts, b)).2 i u hu
    unfold firesInCall
    rw [← hdue]
    by_cases e : u.elapsedTime = u.period
    · rw [(s1 e).1]
      simp [e]
    · rw [(s2 e).1]
      simp [e]
  · intro ts b i t h hlt
    obtain ⟨_, s2⟩ := TimerISR_step ts b i t h
    obtain ⟨q1, q2, q3⟩ := s2 (by omega)
    refine ⟨q1, ?_, q3⟩
    rw [q2]
    rfl
  · intro ts b
    exact ⟨boardBefore_zero ts b, boardBefore_length ts b⟩

/-- Instance of C2 on the task table of `main`, with the control button held (bit 0 of
`PINC`): the Input task (index 0, period `1 * GCD_PERIOD`) is passed over in the first call of
`TimerISR` and `TickButtons` is applied in the second, where it raises the control flag. -/
theorem C2_TimerISR_fires_every_k_witness :
    (main_tasks[0]?.map (fun t => (t.period, t.elapsedTime)) = some (1 * GCD_PERIOD, 0)) ∧
    firesInCall (main_tasks, pressedBoard) 1 0 = true ∧
    ((TimerISR main_tasks pressedBoard).2.2.getD 0 false = false ∧
      (TimerISR main_tasks pressedBoard).1[0]?.map task.state = some IDLE.toNat ∧
      boardBefore main_tasks pressedBoard (0 + 1) = boardBefore main_tasks pressedBoard 0) ∧
    (∃ u, (TimerISR_after 1 (main_tasks, pressedBoard)).1[0]? = some u ∧
      boardBefore (TimerISR_after 1 (main_tasks, pressedBoard)).1
          (TimerISR_after 1 (main_tasks, pressedBoard)).2 (0 + 1) =
        (TickButtons (wrapInt16 (u.state : Int))
          (boardBefore (TimerISR_after 1 (main_tasks, pressedBoard)).1
            (TimerISR_after 1 (main_tasks, pressedBoard)).2 0)).2) ∧
    (TimerISR_after 1 (main_tasks, pressedBoard)).2.control = false ∧
    (boardBefore (TimerISR_after 1 (main_tasks, pressedBoard)).1
      (TimerISR_after 1 (main_tasks, pressedBoard)).2 (0 + 1)).control = true := by
  refine ⟨rfl, ?_, ?_, ?_, by decide, by decide⟩
  · exact (C2_TimerISR_fires_every_k.2.1 main_tasks pressedBoard 0 1
      { period := TASK1_PERIOD, state := IDLE.toNat, elapsedTime := 0, TickFct := TickButtons }
      rfl (le_refl 1) (by decide) (by decide) rfl 1).mpr ⟨1, le_refl 1, rfl⟩
  · exact C2_TimerISR_fires_every_k.2.2.1 main_tasks pressedBoard 0
      { period := TASK1_PERIOD, state := IDLE.toNat, elapsedTime := 0, TickFct := TickButtons }
      rfl (by decide)
  · obtain ⟨u, hu, _, h1, _⟩ := C2_TimerISR_fires_every_k.1 main_tasks pressedBoard 0 1
      { period := TASK1_PERIOD, state := IDLE.toNat, elapsedTime := 0, TickFct := TickButtons }
      rfl (le_refl 1) (by decide) (by decide) rfl 1
    exact ⟨u, hu, (h1 ⟨1, le_refl 1, rfl⟩).2⟩

/-! ### TickButtons -/

theorem TickButtons_idle_jump (b : Blackboard) (h1 : GetBit b.PINC 1 = true)
    (h0 : GetBit b.PINC 0 = false) :
    (TickButtons IDLE b).1 = SET_JUMP ∧ (TickButtons IDLE b).2.jump = true := by
  simp [TickButtons, h1, h0, IDLE, SET_JUMP, SET_CONTROL]

theorem TickButtons_hold_jump (b : Blackboard) (h1 : GetBit b.PINC 1 = true) :
    (TickButtons SET_JUMP b).1 = SET_JUMP ∧ (TickButtons SET_JUMP b).2.jump = false := by
  simp [TickButtons, h1, IDLE, SET_JUMP, SET_CONTROL]

theorem TickButtons_release_jump (b : Blackboard) (h1 : GetBit b.PINC 1 = false) :
    (TickButtons SET_JUMP b).1 = IDLE ∧ (TickButtons SET_JUMP b).2.jump = false ∧
      (TickButtons SET_JUMP b).2.control = false := by
  simp [TickButtons, h1, IDLE, SET_JUMP, SET_CONTROL]

theorem buttonsAfter_hold (n : Nat) (pin : Nat → Nat) (b : Blackboard)
    (hold : ∀ j, j < n → GetBit (pin j) 1 = true ∧ GetBit (pin j) 0 = false) :
    ∀ j, 1 ≤ j → j ≤ n →
      (buttonsAfter pin j (IDLE, b)).1 = SET_JUMP ∧
      ((buttonsAfter pin j (IDLE, b)).2.jump = true ↔ j = 1) := by
  intro j
  induction j with
  | zero => intro h; omega
  | succ j ih =>
    intro _ hj
    obtain ⟨hp1, hp0⟩ := hold j (by omega)
    by_cases h0 : j = 0
    · subst h0
      have := TickButtons_idle_jump { b with PINC := pin 0 } hp1 hp0
      simpa [buttonsAfter] using this
    · obtain ⟨hs, _⟩ := ih (by omega) (by omega)
      have := TickButtons_hold_jump { (buttonsAfter pin j (IDLE, b)).2 with PINC := pin j } hp1
      simp only [buttonsAfter, hs]
      refine ⟨this.1, ?_⟩
      rw [this.2]
      simp [h0]

/-- C3: starting `TickButtons` in `IDLE` (with both flags false, or with any other value of
the flags) and the control input low throughout, if the jump input is sampled high on `n ≥ 1` consecutive ticks and low on the next
one, then among these `n + 1` ticks the jump flag is true after the first tick of the hold and
false after every other tick of the hold and after the release tick. -/
theorem C3_jump_flag_one_tick (n : Nat) (pin : Nat → Nat) (b : Blackboard)
    (hn : 1 ≤ n)
    (hold : ∀ j, j < n → GetBit (pin j) 1 = true ∧ GetBit (pin j) 0 = false)
    (release : GetBit (pin n) 1 = false ∧ GetBit (pin n) 0 = false) :
    ∀ j, 1 ≤ j → j ≤ n + 1 →
      ((buttonsAfter pin j (IDLE, b)).2.jump = true ↔ j = 1) := by
  intro j h1 h2
  by_cases hl : j ≤ n
  · exact (buttonsAfter_hold n pin b hold j h1 hl).2
  · have e : j = n + 1 := by omega
    subst e
    obtain ⟨hs, _⟩ := buttonsAfter_hold n pin b hold n hn (le_refl n)
    have := TickButtons_release_jump { (buttonsAfter pin n (IDLE, b)).2 with PINC := pin n }
      release.1
    simp only [buttonsAfter, hs]
    rw [this.2.1]
    simp
    omega

/-- Instance of C3: the jump button (bit 1 of `PINC`) held for three ticks, then released;
the jump flag is true after tick 1 only. -/
theorem C3_jump_flag_one_tick_witness :
    ((buttonsAfter (fun j => if j < 3 then 2 else 0) 1 (IDLE, sampleBoard)).2.jump = true ↔
      1 = 1) ∧
    ((buttonsAfter (fun j => if j < 3 then 2 else 0) 3 (IDLE, sampleBoard)).2.jump = true ↔
      3 = 1) ∧
    ((buttonsAfter (fun j => if j < 3 then 2 else 0) 4 (IDLE, sampleBoard)).2.jump = true ↔
      4 = 1) :=
  have h := C3_jump_flag_one_tick 3 (fun j => if j < 3 then 2 else 0) sampleBoard
    (by decide)
    (by intro j hj; simp only [if_pos hj]; decide)
    (by decide)
  ⟨h 1 (by decide) (by decide), h 3 (by decide) (by decide), h 4 (by decide) (by decide)⟩

/-! ### TickMenu -/

theorem TickMenu_paused_press (b : Blackboard) (hc : b.control = true) :
    (TickMenu PAUSED b).1 = HOLDING_PLAY_RESET ∧
      (TickMenu PAUSED b).2.menu_cnt = b.menu_cnt + 1 := by
  simp [TickMenu, hc, PAUSED, HOLDING_PLAY_RESET]

theorem TickMenu_holding_stay (b : Blackboard) (hc : b.control = true)
    (hlt : b.menu_cnt < 30) :
    (TickMenu HOLDING_PLAY_RESET b).1 = HOLDING_PLAY_RESET ∧
      (TickMenu HOLDING_PLAY_RESET b).2.menu_cnt = b.menu_cnt + 1 := by
  simp [TickMenu, hc, hlt, PAUSED, HOLDING_PLAY_RESET, reset_timer]

theorem TickMenu_holding_release (b : Blackboard) (hc : b.control = false)
    (hlt : b.menu_cnt < 30) :
    (TickMenu HOLDING_PLAY_RESET b).1 = PLAYING := by
  simp [TickMenu, hc, hlt, PAUSED, HOLDING_PLAY_RESET, PLAYING, reset_timer]

theorem TickMenu_holding_reset (b : Blackboard) (hcnt : b.menu_cnt = 30) :
    (TickMenu HOLDING_PLAY_RESET b).1 = RESETTING := by
  simp [TickMenu, hcnt, PAUSED, HOLDING_PLAY_RESET, PLAYING, RESETTING, reset_timer]

theorem TickMenu_resetting_next (b : Blackboard) :
    (TickMenu RESETTING b).1 = HOLDING_PAUSED := by
  simp [TickMenu, PAUSED, HOLDING_PLAY_RESET, PLAYING, RESETTING, HOLDING_PAUSED]

theorem TickMenu_holding_paused_stay (b : Blackboard) (hc : b.control = true) :
    (TickMenu HOLDING_PAUSED b).1 = HOLDING_PAUSED := by
  simp [TickMenu, hc, PAUSED, HOLDING_PLAY_RESET, PLAYING, RESETTING, HOLDING_PAUSED]

/-- While control is held and the counter is below the threshold, the FSM waits in
`HOLDING_PLAY_RESET` and the counter equals the number of ticks of the hold so far. -/
theorem menuAfter_holding (h : Nat) (ctl dd : Nat → Bool) (b : Blackboard)
    (hcnt : b.menu_cnt = 0) (hold : ∀ j, j < h → ctl j = true) :
    ∀ j, 1 ≤ j → j ≤ h → j ≤ 30 →
      (menuAfter ctl dd j (PAUSED, b)).1 = HOLDING_PLAY_RESET ∧
      (menuAfter ctl dd j (PAUSED, b)).2.menu_cnt = (j : Int) := by
  intro j
  induction j with
  | zero => intro h; omega
  | succ j ih =>
    intro _ hj hj30
    have hcj := hold j (by omega)
    by_cases h0 : j = 0
    · subst h0
      have := TickMenu_paused_press { b with control := ctl 0, dead := dd 0 } hcj
      simp only [menuAfter]
      refine ⟨this.1, ?_⟩
      rw [this.2]
      simp [hcnt]
    · obtain ⟨hs, hc⟩ := ih (by omega) (by omega) (by omega)
      have := TickMenu_holding_stay
        { (menuAfter ctl dd j (PAUSED, b)).2 with control := ctl j, dead := dd j } hcj
        (by show (menuAfter ctl dd j (PAUSED, b)).2.menu_cnt < 30; rw [hc]; omega)
      simp only [menuAfter, hs]
      refine ⟨this.1, ?_⟩
      rw [this.2]
      show (menuAfter ctl dd j (PAUSED, b)).2.menu_cnt + 1 = ((j + 1 : Nat) : Int)
      rw [hc]
      push_cast
      ring

theorem menuAfter_succ (ctl dd : Nat → Bool) (j : Nat) (s : Int × Blackboard) :
    menuAfter ctl dd (j + 1) s =
      TickMenu (menuAfter ctl dd j s).1
        { (menuAfter ctl dd j s).2 with control := ctl j, dead := dd j } := rfl

theorem menuAfter_tick31 (h : Nat) (ctl dd : Nat → Bool) (b : Blackboard)
    (hcnt : b.menu_cnt = 0) (hold : ∀ j, j < h → ctl j = true) (h30 : 30 ≤ h) :
    (menuAfter ctl dd 31 (PAUSED, b)).1 = RESETTING := by
  obtain ⟨hs, hc⟩ := menuAfter_holding h ctl dd b hcnt hold 30 (by omega) h30 (le_refl 30)
  rw [show (31 : Nat) = 30 + 1 from rfl, menuAfter_succ]
  generalize menuAfter ctl dd 30 (PAUSED, b) = s at hs hc
  rw [hs]
  exact TickMenu_holding_reset _ (by simpa using hc)

theorem menuAfter_holding_paused (h : Nat) (ctl dd : Nat → Bool) (b : Blackboard)
    (hcnt : b.menu_cnt = 0) (hold : ∀ j, j < h → ctl j = true) (h30 : 30 ≤ h) :
    ∀ j, 32 ≤ j → j ≤ h + 1 → (j ≤ h ∨ j = 32) →
      (menuAfter ctl dd j (PAUSED, b)).1 = HOLDING_PAUSED := by
  intro j
  induction j with
  | zero => intro h; omega
  | succ j ih =>
    intro hj1 hj2 hj3
    by_cases h31 : j = 31
    · subst h31
      rw [menuAfter_succ, menuAfter_tick31 h ctl dd b hcnt hold h30]
      exact TickMenu_resetting_next _
    · have hs := ih (by omega) (by omega) (by omega)
      rw [menuAfter_succ, hs]
      exact TickMenu_holding_paused_stay _ (hold j (by omega))

theorem TickMenu_holding_paused_release (b : Blackboard) (hc : b.control = false) :
    (TickMenu HOLDING_PAUSED b).1 = PAUSED := by
  simp [TickMenu, hc, PAUSED, HOLDING_PLAY_RESET, PLAYING, RESETTING, HOLDING_PAUSED]

/-- C4: starting `TickMenu` in `PAUSED` with hold counter `0`, let control be true on ticks
`1 .. h` and false on tick `h + 1` (the release tick).  If `1 ≤ h < 30` the FSM is in `PLAYING`
after the release tick and is in `RESETTING` after none of the ticks `0 .. h + 1`.  If `h ≥ 30`
then, among the ticks `1 .. h + 1`, the FSM is in `RESETTING` after tick 31 and after no other
one (for `h = 30` tick 31 is the release tick), and it is in `HOLDING_PAUSED` after each tick
`32 .. h`, so `RESETTING` is entered exactly once. -/
theorem C4_menu_hold_reset_once (h : Nat) (ctl dd : Nat → Bool) (b : Blackboard)
    (hcnt : b.menu_cnt = 0) (hh : 1 ≤ h) (hold : ∀ j, j < h → ctl j = true)
    (release : ctl h = false) :
    (h < 30 →
      (menuAfter ctl dd (h + 1) (PAUSED, b)).1 = PLAYING ∧
      ∀ j, j ≤ h + 1 → (menuAfter ctl dd j (PAUSED, b)).1 ≠ RESETTING) ∧
    (30 ≤ h →
      (∀ j, 1 ≤ j → j ≤ h + 1 →
        ((menuAfter ctl dd j (PAUSED, b)).1 = RESETTING ↔ j = 31)) ∧
      (∀ j, 32 ≤ j → j ≤ h → (menuAfter ctl dd j (PAUSED, b)).1 = HOLDING_PAUSED)) := by
  have hmid := menuAfter_holding h ctl dd b hcnt hold
  constructor
  · intro hlt
    have hplay : (menuAfter ctl dd (h + 1) (PAUSED, b)).1 = PLAYING := by
      obtain ⟨hs, hc⟩ := hmid h hh (le_refl h) (by omega)
      rw [menuAfter_succ]
      generalize menuAfter ctl dd h (PAUSED, b) = s at hs hc
      rw [hs]
      exact TickMenu_holding_release _ release (by show s.2.menu_cnt < 30; rw [hc]; omega)
    refine ⟨hplay, ?_⟩
    intro j hj
    by_cases h0 : j = 0
    · subst h0
      simp [menuAfter, PAUSED, RESETTING]
    · by_cases hl : j ≤ h
      · rw [(hmid j (by omega) hl (by omega)).1]
        simp [HOLDING_PLAY_RESET, RESETTING]
      · have e : j = h + 1 := by omega
        rw [e, hplay]
        simp [PLAYING, RESETTING]
  · intro h30
    have h31 := menuAfter_tick31 h ctl dd b hcnt hold h30
    have hhp := menuAfter_holding_paused h ctl dd b hcnt hold h30
    refine ⟨?_, fun j hj1 hj2 => hhp j hj1 (by omega) (Or.inl hj2)⟩
    intro j hj1 hj2
    by_cases hl : j ≤ 30
    · rw [(hmid j hj1 (by omega) hl).1]
      simp [HOLDING_PLAY_RESET, RESETTING]
      omega
    · by_cases he : j = 31
      · subst he
        simp [h31]
      · by_cases hr : j ≤ h ∨ j = 32
        · rw [hhp j (by omega) hj2 hr]
          simp [HOLDING_PAUSED, RESETTING]
          omega
        · have e : j = (j - 1) + 1 := by omega
          have hprev := hhp (j - 1) (by omega) (by omega) (Or.inl (by omega))
          rw [e, menuAfter_succ, hprev]
          rw [TickMenu_holding_paused_release _ (by
            show ctl (j - 1) = false
            have : j - 1 = h := by omega
            rw [this]; exact release)]
          simp [PAUSED, RESETTING]
          omega

/-- Instance of C4: control held for exactly 30 ticks gives `RESETTING` after tick 31; control
held for 2 ticks gives `PLAYING` after the release tick. -/
theorem C4_menu_hold_reset_once_witness :
    (menuAfter (fun j => decide (j < 30)) (fun _ => false) 31 (PAUSED, sampleBoard)).1
      = RESETTING ∧
    (menuAfter (fun j => decide (j < 2)) (fun _ => false) 3 (PAUSED, sampleBoard)).1
      = PLAYING :=
  ⟨(((C4_menu_hold_reset_once 30 (fun j => decide (j < 30)) (fun _ => false) sampleBoard rfl
        (by decide) (by intro j hj; simpa using hj) (by decide)).2 (by decide)).1 31
        (by decide) (by decide)).mpr rfl,
   ((C4_menu_hold_reset_once 2 (fun j => decide (j < 2)) (fun _ => false) sampleBoard rfl
        (by decide) (by intro j hj; simpa using hj) (by decide)).1 (by decide)).1⟩

theorem TickMenu_resetting_effect (b : Blackboard) :
    (TickMenu_resetting b).game_state = GAME_STATE.RESET ∧
    (TickMenu_resetting b).dead = false ∧
    (TickMenu_resetting b).score = 0 ∧
    (TickMenu_resetting b).curr_column = 0 ∧
    (b.score > b.high_score →
      (TickMenu_resetting b).high_score = b.score - 1 ∧
      (TickMenu_resetting b).eeprom_log = b.eeprom_log ++ [b.score - 1]) ∧
    (¬ b.score > b.high_score →
      (TickMenu_resetting b).high_score = b.high_score ∧
      (TickMenu_resetting b).eeprom_log = b.eeprom_log) := by
  unfold TickMenu_resetting
  by_cases h : b.score > b.high_score
  · simp [h]
  · simp [h]

/-- A tick of `TickMenu` that ends in `RESETTING` has run the `RESETTING` action on a
configuration with the score, high score and storage log of the configuration before the tick. -/
theorem TickMenu_ends_resetting (state : Int) (b : Blackboard)
    (h : (TickMenu state b).1 = RESETTING) :
    ∃ c : Blackboard, (TickMenu state b).2 = TickMenu_resetting c ∧ c.score = b.score ∧
      c.high_score = b.high_score ∧ c.eeprom_log = b.eeprom_log := by
  have hcases : state = PAUSED ∨ state = HOLDING_PLAY_RESET ∨ state = PLAYING ∨
      state = RESETTING ∨ state = HOLDING_PAUSED ∨
      (state ≠ PAUSED ∧ state ≠ HOLDING_PLAY_RESET ∧ state ≠ PLAYING ∧ state ≠ RESETTING ∧
        state ≠ HOLDING_PAUSED) := by
    simp only [PAUSED, HOLDING_PLAY_RESET, PLAYING, RESETTING, HOLDING_PAUSED]
    omega
  rcases hcases with e | e | e | e | e | ⟨e0, e1, e2, e3, e4⟩
  · subst e
    exfalso
    by_cases hc : b.control = true <;>
      simp [TickMenu, hc, PAUSED, HOLDING_PLAY_RESET, PLAYING, RESETTING, HOLDING_PAUSED] at h
  · subst e
    by_cases hc : b.control = true <;> by_cases hl : b.menu_cnt < 30 <;>
      by_cases he : b.menu_cnt = 30 <;>
      simp [TickMenu, hc, hl, he, reset_timer, PAUSED, HOLDING_PLAY_RESET, PLAYING, RESETTING,
        HOLDING_PAUSED] at h ⊢ <;>
      first
        | omega
        | exact ⟨_, rfl, rfl, rfl, rfl⟩
  · subst e
    by_cases hc : b.control = true
    · exfalso
      simp [TickMenu, hc, PAUSED, HOLDING_PLAY_RESET, PLAYING, RESETTING, HOLDING_PAUSED] at h
    · by_cases hd : b.dead = true
      · simp only [TickMenu, hc, hd, PAUSED, HOLDING_PLAY_RESET, PLAYING, RESETTING,
          HOLDING_PAUSED]
        simp only [Bool.false_eq_true, if_false, if_true]
        norm_num
        exact ⟨_, rfl, rfl, rfl, rfl⟩
      · exfalso
        simp [TickMenu, hc, hd, PAUSED, HOLDING_PLAY_RESET, PLAYING, RESETTING,
          HOLDING_PAUSED] at h
  · subst e
    exfalso
    simp [TickMenu, PAUSED, HOLDING_PLAY_RESET, PLAYING, RESETTING, HOLDING_PAUSED] at h
  · subst e
    exfalso
    by_cases hc : b.control = true <;>
      simp [TickMenu, hc, PAUSED, HOLDING_PLAY_RESET, PLAYING, RESETTING, HOLDING_PAUSED] at h
  · exfalso
    simp [TickMenu, e0, e1, e2, e3, e4] at h

/-- C5: a `TickMenu` tick from `PLAYING` with control false and dead true yields `RESETTING`;
and after every `TickMenu` tick that ends in `RESETTING`, `game_state = RESET`, `dead = false`,
`score = 0`, the current column is column 0, and `high_score` is the old score minus one, with
that value written to persistent storage, if the old score exceeds the old high score, while
otherwise `high_score` is unchanged and nothing is written. -/
theorem C5_menu_resetting_effect :
    (∀ b : Blackboard, b.control = false → b.dead = true →
      (TickMenu PLAYING b).1 = RESETTING) ∧
    (∀ (state : Int) (b : Blackboard), (TickMenu state b).1 = RESETTING →
      (TickMenu state b).2.game_state = GAME_STATE.RESET ∧
      (TickMenu state b).2.dead = false ∧
      (TickMenu state b).2.score = 0 ∧
      (TickMenu state b).2.curr_column = 0 ∧
      (b.score > b.high_score →
        (TickMenu state b).2.high_score = b.score - 1 ∧
        (TickMenu state b).2.eeprom_log = b.eeprom_log ++ [b.score - 1]) ∧
      (¬ b.score > b.high_score →
        (TickMenu state b).2.high_score = b.high_score ∧
        (TickMenu state b).2.eeprom_log = b.eeprom_log)) := by
  constructor
  · intro b hc hd
    simp [TickMenu, hc, hd, PAUSED, HOLDING_PLAY_RESET, PLAYING, RESETTING, HOLDING_PAUSED]
  · intro state b h
    obtain ⟨c, hc, hs, hh, hl⟩ := TickMenu_ends_resetting state b h
    rw [hc, ← hs, ← hh, ← hl]
    exact TickMenu_resetting_effect c

/-- Instance of C5: death during play with score 5 and high score 2. -/
theorem C5_menu_resetting_effect_witness :
    (TickMenu PLAYING { sampleBoard with dead := true, score := 5, high_score := 2 }).1
      = RESETTING ∧
    (TickMenu PLAYING { sampleBoard with dead := true, score := 5, high_score := 2 }).2.score
      = 0 ∧
    (TickMenu PLAYING { sampleBoard with dead := true, score := 5, high_score := 2 }).2.high_score
      = 5 - 1 :=
  have h1 := C5_menu_resetting_effect.1
    { sampleBoard with dead := true, score := 5, high_score := 2 } rfl rfl
  have h2 := C5_menu_resetting_effect.2 PLAYING
    { sampleBoard with dead := true, score := 5, high_score := 2 } h1
  ⟨h1, h2.2.2.1, (h2.2.2.2.2.1 (by decide)).1⟩

/-! ### TickPosition -/

theorem wrapInt16_id (x : Int) (h1 : -32768 ≤ x) (h2 : x ≤ 32767) : wrapInt16 x = x := by
  unfold wrapInt16
  omega

theorem wrapUInt16_id (x : Nat) (h : x < 65536) : wrapUInt16 x = x := by
  unfold wrapUInt16
  omega

theorem positionAfter_succ (gs : Nat → GAME_STATE) (jp dd : Nat → Bool) (j : Nat)
    (s : Int × Blackboard) :
    positionAfter gs jp dd (j + 1) s =
      TickPosition (positionAfter gs jp dd j s).1
        { (positionAfter gs jp dd j s).2 with game_state := gs j, jump := jp j, dead := dd j } :=
  rfl

theorem TickPosition_falling (b : Blackboard) (hg : b.game_state = GAME_STATE.PLAY)
    (hj : b.jump = false) :
    (TickPosition FALLING b).1 = FALLING ∧
    (TickPosition FALLING b).2.speed = wrapUInt16 (b.speed + 1) ∧
    (TickPosition FALLING b).2.height =
      wrapInt16 (b.height - ((wrapUInt16 (b.speed + 1) : Nat) : Int)) ∧
    (TickPosition FALLING b).2.pos_cnt = b.pos_cnt := by
  simp [TickPosition, hg, hj, FALLING, accel]

/-- C6: a `TickPosition` tick from `FALLING` with `game_state = PLAY` and jump false stays in
`FALLING`, sets `speed` to `speed + 1` and `height` to `height` minus the new speed (16-bit
arithmetic; the plain values when nothing wraps); and over a run of such ticks on which no
16-bit wraparound occurs, each tick strictly increases `speed` and strictly decreases
`height`. -/
theorem C6_falling_step_and_run :
    (∀ b : Blackboard, b.game_state = GAME_STATE.PLAY → b.jump = false →
      (TickPosition FALLING b).1 = FALLING ∧
      (TickPosition FALLING b).2.speed = wrapUInt16 (b.speed + accel) ∧
      (TickPosition FALLING b).2.height =
        wrapInt16 (b.height - ((TickPosition FALLING b).2.speed : Int)) ∧
      (b.speed + 1 < 65536 → b.height ≤ 32767 → -32768 ≤ b.height - ((b.speed : Int) + 1) →
        (TickPosition FALLING b).2.speed = b.speed + 1 ∧
        (TickPosition FALLING b).2.height = b.height - ((TickPosition FALLING b).2.speed : Int))) ∧
    (∀ (n : Nat) (gs : Nat → GAME_STATE) (jp dd : Nat → Bool) (b : Blackboard),
      (∀ j, j < n → gs j = GAME_STATE.PLAY ∧ jp j = false) →
      b.height ≤ 32767 →
      (∀ j, j < n →
        (positionAfter gs jp dd j (FALLING, b)).2.speed + 1 < 65536 ∧
        -32768 ≤ (positionAfter gs jp dd j (FALLING, b)).2.height -
          (((positionAfter gs jp dd j (FALLING, b)).2.speed : Int) + 1)) →
      ∀ j, j < n →
        (positionAfter gs jp dd (j + 1) (FALLING, b)).1 = FALLING ∧
        (positionAfter gs jp dd (j + 1) (FALLING, b)).2.speed =
          (positionAfter gs jp dd j (FALLING, b)).2.speed + 1 ∧
        (positionAfter gs jp dd (j + 1) (FALLING, b)).2.height =
          (positionAfter gs jp dd j (FALLING, b)).2.height -
            ((positionAfter gs jp dd (j + 1) (FALLING, b)).2.speed : Int) ∧
        (positionAfter gs jp dd j (FALLING, b)).2.speed <
          (positionAfter gs jp dd (j + 1) (FALLING, b)).2.speed ∧
        (positionAfter gs jp dd (j + 1) (FALLING, b)).2.height <
          (positionAfter gs jp dd j (FALLING, b)).2.height) := by
  have step : ∀ b : Blackboard, b.game_state = GAME_STATE.PLAY → b.jump = false →
      (TickPosition FALLING b).1 = FALLING ∧
      (TickPosition FALLING b).2.speed = wrapUInt16 (b.speed + accel) ∧
      (TickPosition FALLING b).2.height =
        wrapInt16 (b.height - ((TickPosition FALLING b).2.speed : Int)) ∧
      (b.speed + 1 < 65536 → b.height ≤ 32767 → -32768 ≤ b.height - ((b.speed : Int) + 1) →
        (TickPosition FALLING b).2.speed = b.speed + 1 ∧
        (TickPosition FALLING b).2.height =
          b.height - ((TickPosition FALLING b).2.speed : Int)) := by
    intro b hg hj
    obtain ⟨h1, h2, h3, _⟩ := TickPosition_falling b hg hj
    refine ⟨h1, h2, by rw [h3, h2], ?_⟩
    intro hs hh hl
    have e : (TickPosition FALLING b).2.speed = b.speed + 1 := by
      rw [h2, wrapUInt16_id _ hs]
    refine ⟨e, ?_⟩
    rw [h3, wrapUInt16_id _ hs, e]
    apply wrapInt16_id <;> push_cast <;> omega
  refine ⟨step, ?_⟩
  intro n gs jp dd b hin hh hnw
  have inv : ∀ j, j ≤ n →
      (positionAfter gs jp dd j (FALLING, b)).1 = FALLING ∧
      (positionAfter gs jp dd j (FALLING, b)).2.height ≤ 32767 := by
    intro j
    induction j with
    | zero => intro _; exact ⟨rfl, hh⟩
    | succ j ih =>
      intro hj
      obtain ⟨hs, hht⟩ := ih (by omega)
      obtain ⟨hw1, hw2⟩ := hnw j (by omega)
      obtain ⟨hg, hjp⟩ := hin j (by omega)
      have st := step { (positionAfter gs jp dd j (FALLING, b)).2 with
        game_state := gs j, jump := jp j, dead := dd j } hg hjp
      rw [positionAfter_succ, hs]
      refine ⟨st.1, ?_⟩
      have := (st.2.2.2 hw1 hht hw2).2
      rw [this]
      have : ((positionAfter gs jp dd j (FALLING, b)).2.height : Int) ≤ 32767 := hht
      show (positionAfter gs jp dd j (FALLING, b)).2.height - _ ≤ 32767
      omega
  intro j hj
  obtain ⟨hs, hht⟩ := inv j (by omega)
  obtain ⟨hw1, hw2⟩ := hnw j hj
  obtain ⟨hg, hjp⟩ := hin j hj
  have st := step { (positionAfter gs jp dd j (FALLING, b)).2 with
    game_state := gs j, jump := jp j, dead := dd j } hg hjp
  obtain ⟨e1, e2⟩ := st.2.2.2 hw1 hht hw2
  rw [positionAfter_succ, hs]
  refine ⟨st.1, e1, e2, ?_, ?_⟩
  · rw [e1]
    show (positionAfter gs jp dd j (FALLING, b)).2.speed <
      (positionAfter gs jp dd j (FALLING, b)).2.speed + 1
    omega
  · rw [e2, e1]
    show (positionAfter gs jp dd j (FALLING, b)).2.height -
        (((positionAfter gs jp dd j (FALLING, b)).2.speed + 1 : Nat) : Int) <
      (positionAfter gs jp dd j (FALLING, b)).2.height
    push_cast
    omega

/-- Instance of C6: from `height = 64`, `speed = 0`, one falling tick gives `speed = 1`, and in
a run of three falling ticks the third one increases `speed` and decreases `height`. -/
theorem C6_falling_step_and_run_witness :
    (TickPosition FALLING { sampleBoard with game_state := GAME_STATE.PLAY }).2.speed = 0 + 1 ∧
    (positionAfter (fun _ => GAME_STATE.PLAY) (fun _ => false) (fun _ => false) 2
        (FALLING, sampleBoard)).2.speed <
      (positionAfter (fun _ => GAME_STATE.PLAY) (fun _ => false) (fun _ => false) (2 + 1)
        (FALLING, sampleBoard)).2.speed ∧
    (positionAfter (fun _ => GAME_STATE.PLAY) (fun _ => false) (fun _ => false) (2 + 1)
        (FALLING, sampleBoard)).2.height <
      (positionAfter (fun _ => GAME_STATE.PLAY) (fun _ => false) (fun _ => false) 2
        (FALLING, sampleBoard)).2.height :=
  have h1 := (C6_falling_step_and_run.1 { sampleBoard with game_state := GAME_STATE.PLAY }
    rfl rfl).2.2.2 (by decide) (by decide) (by decide)
  have h2 := C6_falling_step_and_run.2 3 (fun _ => GAME_STATE.PLAY) (fun _ => false)
    (fun _ => false) sampleBoard (fun _ _ => ⟨rfl, rfl⟩) (by decide)
    (by
      intro j hj
      interval_cases j <;> decide)
    2 (by decide)
  ⟨h1.1, h2.2.2.2.1, h2.2.2.2.2⟩

theorem TickPosition_falling_jump (b : Blackboard) (hg : b.game_state = GAME_STATE.PLAY)
    (hj : b.jump = true) :
    (TickPosition FALLING b).1 = JUMPING ∧
    (TickPosition FALLING b).2.pos_cnt = wrapUInt16 (b.pos_cnt + 1) ∧
    (TickPosition FALLING b).2.height = wrapInt16 (b.height + 3) ∧
    (TickPosition FALLING b).2.speed = b.speed := by
  simp [TickPosition, hg, hj, FALLING, JUMPING, vertical]

theorem TickPosition_jumping_continue (b : Blackboard) (hg : b.game_state = GAME_STATE.PLAY)
    (hd : b.dead = false) (hc : b.pos_cnt < 5) :
    (TickPosition JUMPING b).1 = JUMPING ∧
    (TickPosition JUMPING b).2.pos_cnt =
      wrapUInt16 ((if b.jump = true then 0 else b.pos_cnt) + 1) ∧
    (TickPosition JUMPING b).2.height = wrapInt16 (b.height + 3) ∧
    (TickPosition JUMPING b).2.speed = b.speed := by
  simp [TickPosition, hg, hd, hc, FALLING, JUMPING, vertical, hangtime]

theorem TickPosition_jumping_expire (b : Blackboard) (hg : b.game_state ≠ GAME_STATE.RESET)
    (hc : b.pos_cnt = 5) :
    (TickPosition JUMPING b).1 = FALLING ∧
    (TickPosition JUMPING b).2.pos_cnt = 0 ∧
    (TickPosition JUMPING b).2.speed = wrapUInt16 (start_speed + accel) ∧
    (TickPosition JUMPING b).2.height =
      wrapInt16 (b.height - ((wrapUInt16 (start_speed + accel) : Nat) : Int)) := by
  simp [TickPosition, hg, hc, FALLING, JUMPING, hangtime, start_speed, accel]

/-- The ascent that follows a jump impulse, whether it starts from `FALLING` or restarts an
ascent in progress: ticks 1 to 5 are spent in `JUMPING`. -/
theorem positionAfter_ascent (gs : Nat → GAME_STATE) (jp dd : Nat → Bool) (b : Blackboard)
    (s0 : Int)
    (hg : ∀ j, gs j = GAME_STATE.PLAY) (hd : ∀ j, dd j = false) (hj0 : jp 0 = true)
    (hj : ∀ j, 1 ≤ j → jp j = false)
    (hh1 : -32768 ≤ b.height) (hh2 : b.height + 15 ≤ 32767)
    (hs0 : (s0 = FALLING ∧ b.pos_cnt = 0) ∨ (s0 = JUMPING ∧ b.pos_cnt < 5)) :
    ∀ j, 1 ≤ j → j ≤ 5 →
      (positionAfter gs jp dd j (s0, b)).1 = JUMPING ∧
      (positionAfter gs jp dd j (s0, b)).2.pos_cnt = j ∧
      (positionAfter gs jp dd j (s0, b)).2.height = b.height + 3 * (j : Int) ∧
      (positionAfter gs jp dd j (s0, b)).2.speed = b.speed := by
  intro j
  induction j with
  | zero => intro h; omega
  | succ j ih =>
    intro _ hj5
    by_cases h0 : j = 0
    · subst h0
      rw [positionAfter_succ]
      simp only [positionAfter]
      rcases hs0 with ⟨e, hc⟩ | ⟨e, hc⟩
      · subst e
        obtain ⟨a1, a2, a3, a4⟩ := TickPosition_falling_jump
          { b with game_state := gs 0, jump := jp 0, dead := dd 0 } (hg 0) hj0
        refine ⟨a1, ?_, ?_, a4⟩
        · rw [a2]
          show wrapUInt16 (b.pos_cnt + 1) = 0 + 1
          rw [hc]; rfl
        · rw [a3]
          show wrapInt16 (b.height + 3) = b.height + 3 * ((0 + 1 : Nat) : Int)
          rw [wrapInt16_id _ (by omega) (by omega)]
          push_cast; ring
      · subst e
        obtain ⟨a1, a2, a3, a4⟩ := TickPosition_jumping_continue
          { b with game_state := gs 0, jump := jp 0, dead := dd 0 } (hg 0) (hd 0) hc
        refine ⟨a1, ?_, ?_, a4⟩
        · rw [a2]
          show wrapUInt16 ((if jp 0 = true then 0 else b.pos_cnt) + 1) = 0 + 1
          rw [if_pos hj0]; rfl
        · rw [a3]
          show wrapInt16 (b.height + 3) = b.height + 3 * ((0 + 1 : Nat) : Int)
          rw [wrapInt16_id _ (by omega) (by omega)]
          push_cast; ring
    · obtain ⟨i1, i2, i3, i4⟩ := ih (by omega) (by omega)
      rw [positionAfter_succ]
      generalize positionAfter gs jp dd j (s0, b) = s at i1 i2 i3 i4
      rw [i1]
      obtain ⟨a1, a2, a3, a4⟩ := TickPosition_jumping_continue
        { s.2 with game_state := gs j, jump := jp j, dead := dd j } (hg j) (hd j)
        (by show s.2.pos_cnt < 5; omega)
      refine ⟨a1, ?_, ?_, a4.trans i4⟩
      · rw [a2]
        show wrapUInt16 ((if jp j = true then 0 else s.2.pos_cnt) + 1) = j + 1
        rw [hj j (by omega)]
        simp only [Bool.false_eq_true, if_false]
        rw [i2]
        exact wrapUInt16_id _ (by omega)
      · rw [a3]
        show wrapInt16 (s.2.height + 3) = b.height + 3 * ((j + 1 : Nat) : Int)
        rw [i3, wrapInt16_id _ (by omega) (by omega)]
        push_cast; ring

/-- C7: with `game_state = PLAY` and `dead = false` throughout, let the jump flag be true on
tick 1 and false afterwards, the first tick being taken either in `FALLING` with hang-time
counter 0 or in `JUMPING` with counter below 5 (a new impulse during an ascent).  Then, absent
16-bit overflow of `height`, the FSM is in `JUMPING` after each of the ticks 1 to 5, each of
them adds 3 to `height` (15 in total) and the counter after tick `j` is `j`; tick 6 returns to
`FALLING` with the counter at 0, and its fall step starts from speed 0 (speed `0 + accel`
and height one fall step lower after it).  So exactly 5 ascending ticks follow a jump impulse,
the tick of the impulse included, also when the impulse restarts an ascent. -/
theorem C7_jump_hangtime (gs : Nat → GAME_STATE) (jp dd : Nat → Bool) (b : Blackboard)
    (s0 : Int)
    (hg : ∀ j, gs j = GAME_STATE.PLAY) (hd : ∀ j, dd j = false) (hj0 : jp 0 = true)
    (hj : ∀ j, 1 ≤ j → jp j = false)
    (hh1 : -32768 ≤ b.height) (hh2 : b.height + 15 ≤ 32767)
    (hs0 : (s0 = FALLING ∧ b.pos_cnt = 0) ∨ (s0 = JUMPING ∧ b.pos_cnt < hangtime)) :
    (∀ j, 1 ≤ j → j ≤ 5 →
      (positionAfter gs jp dd j (s0, b)).1 = JUMPING ∧
      (positionAfter gs jp dd j (s0, b)).2.height =
        (positionAfter gs jp dd (j - 1) (s0, b)).2.height + 3 ∧
      (positionAfter gs jp dd j (s0, b)).2.pos_cnt = j) ∧
    (positionAfter gs jp dd 5 (s0, b)).2.height = b.height + 15 ∧
    (positionAfter gs jp dd 6 (s0, b)).1 = FALLING ∧
    (positionAfter gs jp dd 6 (s0, b)).2.pos_cnt = 0 ∧
    (positionAfter gs jp dd 6 (s0, b)).2.speed = 0 + accel ∧
    (positionAfter gs jp dd 6 (s0, b)).2.height =
      (positionAfter gs jp dd 5 (s0, b)).2.height - ((0 + accel : Nat) : Int) := by
  have asc := positionAfter_ascent gs jp dd b s0 hg hd hj0 hj hh1 hh2 hs0
  obtain ⟨f1, f2, f3, f4⟩ := asc 5 (by omega) (le_refl 5)
  refine ⟨?_, by rw [f3]; norm_num, ?_⟩
  · intro j hj1 hj5
    obtain ⟨a1, a2, a3, _⟩ := asc j hj1 hj5
    refine ⟨a1, ?_, a2⟩
    rw [a3]
    by_cases h1 : j = 1
    · subst h1
      show b.height + 3 * ((1 : Nat) : Int) = b.height + 3
      norm_num
    · rw [(asc (j - 1) (by omega) (by omega)).2.2.1]
      have : ((j - 1 : Nat) : Int) = (j : Int) - 1 := by omega
      rw [this]; ring
  · rw [show (6 : Nat) = 5 + 1 from rfl, positionAfter_succ]
    generalize positionAfter gs jp dd 5 (s0, b) = s at f1 f2 f3 f4
    rw [f1]
    obtain ⟨e1, e2, e3, e4⟩ := TickPosition_jumping_expire
      { s.2 with game_state := gs 5, jump := jp 5, dead := dd 5 }
      (by show gs 5 ≠ GAME_STATE.RESET; rw [hg 5]; decide) f2
    refine ⟨e1, e2, ?_, ?_⟩
    · rw [e3]; rfl
    · rw [e4]
      show wrapInt16 (s.2.height - ((wrapUInt16 (start_speed + accel) : Nat) : Int)) =
        s.2.height - ((0 + accel : Nat) : Int)
      have : wrapUInt16 (start_speed + accel) = 0 + accel := rfl
      rw [this]
      apply wrapInt16_id
      · rw [f3]; simp [accel]; omega
      · rw [f3]; simp [accel]; omega

/-- Instance of C7: a jump impulse on the first tick from `FALLING` at `height = 64`. -/
theorem C7_jump_hangtime_witness :
    (positionAfter (fun _ => GAME_STATE.PLAY) (fun j => decide (j = 0)) (fun _ => false) 5
      (FALLING, sampleBoard)).2.height = sampleBoard.height + 15 ∧
    (positionAfter (fun _ => GAME_STATE.PLAY) (fun j => decide (j = 0)) (fun _ => false) 6
      (FALLING, sampleBoard)).1 = FALLING :=
  have h := C7_jump_hangtime (fun _ => GAME_STATE.PLAY) (fun j => decide (j = 0))
    (fun _ => false) sampleBoard FALLING (fun _ => rfl) (fun _ => rfl) (by decide)
    (by intro j hj; simp; omega) (by decide) (by decide) (Or.inl ⟨rfl, rfl⟩)
  ⟨h.2.1, h.2.2.1⟩

/-- A tick taken with `game_state = PAUSE` from `FALLING`, from `FREEZE`, or from `JUMPING`
with the hang-time counter different from `hangtime`, ends in `FREEZE` and leaves `height`,
`speed` and the counter unchanged. -/
theorem TickPosition_pause_freezes (state : Int) (b : Blackboard)
    (hg : b.game_state = GAME_STATE.PAUSE)
    (hs : state = FALLING ∨ state = FREEZE ∨ (state = JUMPING ∧ b.pos_cnt ≠ hangtime)) :
    (TickPosition state b).1 = FREEZE ∧
    (TickPosition state b).2.height = b.height ∧
    (TickPosition state b).2.speed = b.speed ∧
    (TickPosition state b).2.pos_cnt = b.pos_cnt := by
  rcases hs with e | e | ⟨e, hc⟩
  · subst e
    simp [TickPosition, hg, FALLING, JUMPING, FREEZE]
  · subst e
    simp [TickPosition, hg, FALLING, JUMPING, FREEZE]
  · subst e
    simp [TickPosition, hg, hc, FALLING, JUMPING, FREEZE]

/-- A tick taken from `FREEZE` with `game_state = PLAY` resumes in `JUMPING` when the hang-time
counter is nonzero and in `FALLING` when it is zero. -/
theorem TickPosition_freeze_resume (b : Blackboard) (hg : b.game_state = GAME_STATE.PLAY) :
    (b.pos_cnt ≠ 0 → (TickPosition FREEZE b).1 = JUMPING) ∧
    (b.pos_cnt = 0 → (TickPosition FREEZE b).1 = FALLING) := by
  constructor
  · intro h
    simp [TickPosition, hg, h, FALLING, JUMPING, FREEZE]
  · intro h
    simp [TickPosition, hg, h, FALLING, JUMPING, FREEZE]

/-- C8: evaluation of `TickPosition` at the input where the claim fails.  From `JUMPING` with the
hang-time counter at `hangtime = 5` and `game_state = PAUSE`, the tick does not end in `FREEZE`:
the expiry branch is taken, the state becomes `FALLING`, the counter is cleared, and the fall
step changes `speed` (to 1) and `height` (64 to 63).  The input is reached in play: after a jump
impulse and five ticks under `PLAY` the FSM is in `JUMPING` with the counter at 5, and a sixth
tick under `PAUSE` ends in `FALLING` with `height` lowered from 79 to 78. -/
theorem C8_pause_at_hangtime_falls :
    ((TickPosition JUMPING
        { sampleBoard with game_state := GAME_STATE.PAUSE, pos_cnt := 5 }).1 = FALLING ∧
      (TickPosition JUMPING
        { sampleBoard with game_state := GAME_STATE.PAUSE, pos_cnt := 5 }).1 ≠ FREEZE ∧
      (TickPosition JUMPING
        { sampleBoard with game_state := GAME_STATE.PAUSE, pos_cnt := 5 }).2.pos_cnt = 0 ∧
      (TickPosition JUMPING
        { sampleBoard with game_state := GAME_STATE.PAUSE, pos_cnt := 5 }).2.speed = 1 ∧
      (TickPosition JUMPING
        { sampleBoard with game_state := GAME_STATE.PAUSE, pos_cnt := 5 }).2.height = 63 ∧
      sampleBoard.height = 64 ∧ sampleBoard.speed = 0) ∧
    ((positionAfter (fun j => if j < 5 then GAME_STATE.PLAY else GAME_STATE.PAUSE)
        (fun j => decide (j = 0)) (fun _ => false) 5 (FALLING, sampleBoard)).1 = JUMPING ∧
      (positionAfter (fun j => if j < 5 then GAME_STATE.PLAY else GAME_STATE.PAUSE)
        (fun j => decide (j = 0)) (fun _ => false) 5 (FALLING, sampleBoard)).2.pos_cnt = 5 ∧
      (positionAfter (fun j => if j < 5 then GAME_STATE.PLAY else GAME_STATE.PAUSE)
        (fun j => decide (j = 0)) (fun _ => false) 5 (FALLING, sampleBoard)).2.height = 79 ∧
      (positionAfter (fun j => if j < 5 then GAME_STATE.PLAY else GAME_STATE.PAUSE)
        (fun j => decide (j = 0)) (fun _ => false) 6 (FALLING, sampleBoard)).1 = FALLING ∧
      (positionAfter (fun j => if j < 5 then GAME_STATE.PLAY else GAME_STATE.PAUSE)
        (fun j => decide (j = 0)) (fun _ => false) 6 (FALLING, sampleBoard)).2.height = 78) := by
  constructor <;> decide

/-- C9: a `TickPosition` tick taken with `game_state = RESET` from `FALLING`, `JUMPING` or
`FREEZE` (any counter, jump and dead values) ends in `RESTART`; and every tick taken from
`RESTART`, whatever the phase, ends in `FREEZE` with `height = 64` and `speed = 0`. -/
theorem C9_reset_restart_freeze :
    (∀ (state : Int) (b : Blackboard),
      state = FALLING ∨ state = JUMPING ∨ state = FREEZE →
      b.game_state = GAME_STATE.RESET →
      (TickPosition state b).1 = RESTART) ∧
    (∀ b : Blackboard,
      (TickPosition RESTART b).1 = FREEZE ∧
      (TickPosition RESTART b).2.height = 64 ∧
      (TickPosition RESTART b).2.speed = 0) := by
  constructor
  · intro state b hs hg
    rcases hs with e | e | e
    · subst e
      simp [TickPosition, hg, FALLING, JUMPING, FREEZE, RESTART]
    · subst e
      simp [TickPosition, hg, FALLING, JUMPING, FREEZE, RESTART]
    · subst e
      simp [TickPosition, hg, FALLING, JUMPING, FREEZE, RESTART]
  · intro b
    simp [TickPosition, FALLING, JUMPING, FREEZE, RESTART, start_height, start_speed]

/-- Instance of C9: a reset requested during an ascent, then the tick taken from `RESTART`. -/
theorem C9_reset_restart_freeze_witness :
    (TickPosition JUMPING
      { sampleBoard with game_state := GAME_STATE.RESET, pos_cnt := 3, jump := true }).1
      = RESTART ∧
    (TickPosition RESTART { sampleBoard with height := 7, speed := 9 }).2.height = 64 :=
  ⟨C9_reset_restart_freeze.1 JUMPING
      { sampleBoard with game_state := GAME_STATE.RESET, pos_cnt := 3, jump := true }
      (Or.inr (Or.inl rfl)) rfl,
   (C9_reset_restart_freeze.2 { sampleBoard with height := 7, speed := 9 }).2.1⟩

/-! ### TickLevel -/

theorem levelAfter_succ (gs : Nat → GAME_STATE) (j : Nat) (s : Int × Blackboard) :
    levelAfter gs (j + 1) s =
      TickLevel (levelAfter gs j s).1 { (levelAfter gs j s).2 with game_state := gs j } := rfl

theorem refresh_pipe_level_i (i : Int) (b : Blackboard) :
    (refresh_pipe i b).level_i = b.level_i := rfl

theorem TickLevel_go_play (b : Blackboard) (hg : b.game_state = GAME_STATE.PLAY) :
    (TickLevel GO b).1 = GO ∧
    (TickLevel GO b).2.level_i = (if b.level_i < LEVEL_SIZE - 1 then b.level_i + 1 else 0) := by
  unfold TickLevel
  simp only [hg, GO, STOP]
  refine ⟨by simp, ?_⟩
  simp only [one_ne_zero, if_false, if_true]
  split_ifs <;> simp_all [refresh_pipe_level_i]

theorem TickLevel_go_play_mod (b : Blackboard) (hg : b.game_state = GAME_STATE.PLAY)
    (h0 : 0 ≤ b.level_i) (h1 : b.level_i < LEVEL_SIZE) :
    (TickLevel GO b).1 = GO ∧
    (TickLevel GO b).2.level_i = (b.level_i + 1) % LEVEL_SIZE := by
  obtain ⟨a1, a2⟩ := TickLevel_go_play b hg
  refine ⟨a1, ?_⟩
  rw [a2]
  unfold LEVEL_SIZE at *
  split_ifs <;> omega

theorem levelAfter_cursor (gs : Nat → GAME_STATE) (b : Blackboard)
    (hg : ∀ j, j < 128 → gs j = GAME_STATE.PLAY)
    (h0 : 0 ≤ b.level_i) (h1 : b.level_i < LEVEL_SIZE) :
    ∀ j, j ≤ 128 →
      (levelAfter gs j (GO, b)).1 = GO ∧
      (levelAfter gs j (GO, b)).2.level_i = (b.level_i + (j : Int)) % LEVEL_SIZE := by
  have hL : LEVEL_SIZE = 128 := rfl
  rw [hL] at h1
  intro j
  induction j with
  | zero =>
    intro _
    refine ⟨rfl, ?_⟩
    show b.level_i = (b.level_i + ((0 : Nat) : Int)) % LEVEL_SIZE
    rw [hL]
    omega
  | succ j ih =>
    intro hj
    obtain ⟨i1, i2⟩ := ih (by omega)
    rw [levelAfter_succ]
    generalize levelAfter gs j (GO, b) = s at i1 i2
    rw [i1]
    rw [hL] at i2
    obtain ⟨a1, a2⟩ := TickLevel_go_play_mod { s.2 with game_state := gs j } (hg j (by omega))
      (by show 0 ≤ s.2.level_i; omega) (by show s.2.level_i < LEVEL_SIZE; rw [hL]; omega)
    refine ⟨a1, ?_⟩
    rw [a2]
    show (s.2.level_i + 1) % LEVEL_SIZE = (b.level_i + ((j + 1 : Nat) : Int)) % LEVEL_SIZE
    rw [hL, i2]
    push_cast
    omega

/-- C10: starting `TickLevel` in `GO` with the cursor `i` at a value `c` in `[0, LEVEL_SIZE)`,
each of 128 consecutive ticks taken with `game_state = PLAY` stays in `GO` and moves the
cursor to `(cursor + 1) mod 128`, and after the 128 ticks the cursor is `c` again. -/
theorem C10_cursor_returns_after_level_size (gs : Nat → GAME_STATE) (b : Blackboard)
    (hg : ∀ j, j < 128 → gs j = GAME_STATE.PLAY)
    (h0 : 0 ≤ b.level_i) (h1 : b.level_i < LEVEL_SIZE) :
    (∀ j, j < 128 →
      (levelAfter gs (j + 1) (GO, b)).1 = GO ∧
      (levelAfter gs (j + 1) (GO, b)).2.level_i =
        ((levelAfter gs j (GO, b)).2.level_i + 1) % LEVEL_SIZE) ∧
    (levelAfter gs 128 (GO, b)).2.level_i = b.level_i := by
  have inv := levelAfter_cursor gs b hg h0 h1
  have hL : LEVEL_SIZE = 128 := rfl
  rw [hL] at h1
  constructor
  · intro j hj
    obtain ⟨a1, a2⟩ := inv (j + 1) (by omega)
    refine ⟨a1, ?_⟩
    rw [a2, (inv j (by omega)).2, hL]
    push_cast
    omega
  · rw [(inv 128 (le_refl 128)).2, hL]
    push_cast
    omega

/-- Instance of C10: a lap of the level from cursor 100. -/
theorem C10_cursor_returns_after_level_size_witness :
    (levelAfter (fun _ => GAME_STATE.PLAY) 128 (GO, { sampleBoard with level_i := 100 })).2.level_i
      = 100 :=
  (C10_cursor_returns_after_level_size (fun _ => GAME_STATE.PLAY)
    { sampleBoard with level_i := 100 } (fun _ _ => rfl) (by decide) (by decide)).2

theorem refresh_pipe_frame (i : Int) (b : Blackboard) :
    (refresh_pipe i b).frame = b.frame := rfl

/-- One tick of `TickLevel`, from any state: the published frame is the cursor before the tick,
the published current column is the cursor after the tick, and the cursor is kept, reset to 0,
or advanced by one from a value below `LEVEL_SIZE - 1`. -/
theorem TickLevel_cursor (state : Int) (b : Blackboard) :
    (TickLevel state b).2.frame = b.level_i ∧
    (TickLevel state b).2.curr_column = (TickLevel state b).2.level_i ∧
    ((TickLevel state b).2.level_i = b.level_i ∨ (TickLevel state b).2.level_i = 0 ∨
      ((TickLevel state b).2.level_i = b.level_i + 1 ∧ b.level_i < LEVEL_SIZE - 1)) := by
  refine ⟨?_, rfl, ?_⟩
  · unfold TickLevel
    dsimp only
    split_ifs <;> rfl
  · unfold TickLevel
    dsimp only
    split_ifs <;> simp_all [refresh_pipe_level_i]

/-- C11: if the cursor of `TickLevel` is in `[0, LEVEL_SIZE)` before a tick then, for every task
state and every `game_state`, after the tick the cursor, the published frame index and the
index of the published current column are in `[0, LEVEL_SIZE)`; so, starting from cursor 0,
the cursor is in range after any number of ticks and the frame and current column published by
each tick are in range. -/
theorem C11_cursor_frame_column_in_range :
    (∀ (state : Int) (b : Blackboard), 0 ≤ b.level_i → b.level_i < LEVEL_SIZE →
      (0 ≤ (TickLevel state b).2.level_i ∧ (TickLevel state b).2.level_i < LEVEL_SIZE) ∧
      (0 ≤ (TickLevel state b).2.frame ∧ (TickLevel state b).2.frame < LEVEL_SIZE) ∧
      (0 ≤ (TickLevel state b).2.curr_column ∧
        (TickLevel state b).2.curr_column < LEVEL_SIZE)) ∧
    (∀ (gs : Nat → GAME_STATE) (state : Int) (b : Blackboard), b.level_i = 0 →
      ∀ n : Nat,
        (0 ≤ (levelAfter gs n (state, b)).2.level_i ∧
          (levelAfter gs n (state, b)).2.level_i < LEVEL_SIZE) ∧
        (0 ≤ (levelAfter gs (n + 1) (state, b)).2.frame ∧
          (levelAfter gs (n + 1) (state, b)).2.frame < LEVEL_SIZE) ∧
        (0 ≤ (levelAfter gs (n + 1) (state, b)).2.curr_column ∧
          (levelAfter gs (n + 1) (state, b)).2.curr_column < LEVEL_SIZE)) := by
  have hL : LEVEL_SIZE = 128 := rfl
  have step : ∀ (state : Int) (b : Blackboard), 0 ≤ b.level_i → b.level_i < LEVEL_SIZE →
      (0 ≤ (TickLevel state b).2.level_i ∧ (TickLevel state b).2.level_i < LEVEL_SIZE) ∧
      (0 ≤ (TickLevel state b).2.frame ∧ (TickLevel state b).2.frame < LEVEL_SIZE) ∧
      (0 ≤ (TickLevel state b).2.curr_column ∧
        (TickLevel state b).2.curr_column < LEVEL_SIZE) := by
    intro state b h0 h1
    obtain ⟨hf, hc, hi⟩ := TickLevel_cursor state b
    rw [hf, hc]
    rw [hL] at h1 hi ⊢
    have : 0 ≤ (TickLevel state b).2.level_i ∧ (TickLevel state b).2.level_i < 128 := by
      rcases hi with h | h | ⟨h, h2⟩ <;> omega
    exact ⟨this, ⟨h0, h1⟩, this⟩
  refine ⟨step, ?_⟩
  intro gs state b hb
  have cur : ∀ n : Nat, 0 ≤ (levelAfter gs n (state, b)).2.level_i ∧
      (levelAfter gs n (state, b)).2.level_i < LEVEL_SIZE := by
    intro n
    induction n with
    | zero =>
      show 0 ≤ b.level_i ∧ b.level_i < LEVEL_SIZE
      rw [hb, hL]; omega
    | succ n ih =>
      rw [levelAfter_succ]
      exact (step _ { (levelAfter gs n (state, b)).2 with game_state := gs n } ih.1 ih.2).1
  intro n
  refine ⟨cur n, ?_⟩
  rw [levelAfter_succ]
  exact (step _ { (levelAfter gs n (state, b)).2 with game_state := gs n } (cur n).1 (cur n).2).2

/-- Instance of C11: a tick in `GO` under `PLAY` at the last cursor position. -/
theorem C11_cursor_frame_column_in_range_witness :
    (TickLevel GO { sampleBoard with level_i := 127, game_state := GAME_STATE.PLAY }).2.level_i
      < LEVEL_SIZE ∧
    (levelAfter (fun _ => GAME_STATE.PLAY) (200 + 1) (STOP, sampleBoard)).2.curr_column
      < LEVEL_SIZE :=
  ⟨(C11_cursor_frame_column_in_range.1 GO
      { sampleBoard with level_i := 127, game_state := GAME_STATE.PLAY }
      (by decide) (by decide)).1.2,
   ((C11_cursor_frame_column_in_range.2 (fun _ => GAME_STATE.PLAY) STOP sampleBoard rfl
      200).2.2).2⟩

/-! ### The task table -/

theorem TickButtons_ne_TickMenu : TickButtons ≠ TickMenu := by
  intro h
  have := congrArg (fun f => (f 3 sampleBoard).1) h
  revert this
  decide

theorem TickButtons_ne_TickPosition : TickButtons ≠ TickPosition := by
  intro h
  have := congrArg (fun f => (f 3 sampleBoard).1) h
  revert this
  decide

theorem TickDeath_ne_TickPosition : TickDeath ≠ TickPosition := by
  intro h
  have := congrArg (fun f => (f 3 sampleBoard).1) h
  revert this
  decide

theorem TickMenu_ne_TickPosition : TickMenu ≠ TickPosition := by
  intro h
  have := congrArg (fun f => (f 3 sampleBoard).1) h
  revert this
  decide

theorem TickLevel_ne_TickPosition : TickLevel ≠ TickPosition := by
  intro h
  have := congrArg (fun f => (f 3 sampleBoard).1) h
  revert this
  decide

theorem TickDraw_ne_TickPosition : TickDraw ≠ TickPosition := by
  intro h
  have := congrArg (fun f => (f 3 sampleBoard).1) h
  revert this
  decide

/-- C13, as the code has it: the task table built by `main` holds, in increasing index order,
`TickButtons`, `TickPosition`, `TickDeath`, `TickMenu`, `TickLevel`, `TickDraw`; so the Input
task (index 0) is placed before the Position task (1), the Position task before the Death
task (2), and the Menu task (3) after both of them; `TimerISR` reports its calls in that index
order. -/
theorem C13_task_table_order :
    main_tasks.map task.TickFct =
      [TickButtons, TickPosition, TickDeath, TickMenu, TickLevel, TickDraw] ∧
    main_tasks.length = NUM_TASKS ∧
    (∀ b : Blackboard, (TimerISR main_tasks b).2.2.length = NUM_TASKS) ∧
    (∃ i j : Nat, i < j ∧ main_tasks[i]?.map task.TickFct = some TickButtons ∧
      main_tasks[j]?.map task.TickFct = some TickPosition) ∧
    (∃ i j : Nat, i < j ∧ main_tasks[i]?.map task.TickFct = some TickPosition ∧
      main_tasks[j]?.map task.TickFct = some TickDeath) ∧
    (∃ i j : Nat, i < j ∧ main_tasks[i]?.map task.TickFct = some TickDeath ∧
      main_tasks[j]?.map task.TickFct = some TickMenu) ∧
    (∃ i j : Nat, i < j ∧ main_tasks[i]?.map task.TickFct = some TickButtons ∧
      main_tasks[j]?.map task.TickFct = some TickMenu) := by
  refine ⟨rfl, rfl, ?_, ⟨0, 1, by decide, rfl, rfl⟩, ⟨1, 2, by decide, rfl, rfl⟩,
    ⟨2, 3, by decide, rfl, rfl⟩, ⟨0, 3, by decide, rfl, rfl⟩⟩
  intro b
  rw [TimerISR_fired]
  rfl

/-- C13 fails as stated: no entry calling `TickMenu` stands before an entry calling
`TickPosition` in the task table of `main`. -/
theorem C13_menu_not_before_position :
    ¬ ((∃ i j : Nat, i < j ∧ main_tasks[i]?.map task.TickFct = some TickButtons ∧
          main_tasks[j]?.map task.TickFct = some TickMenu) ∧
       (∃ i j : Nat, i < j ∧ main_tasks[i]?.map task.TickFct = some TickMenu ∧
          main_tasks[j]?.map task.TickFct = some TickPosition) ∧
       (∃ i j : Nat, i < j ∧ main_tasks[i]?.map task.TickFct = some TickPosition ∧
          main_tasks[j]?.map task.TickFct = some TickDeath)) := by
  rintro ⟨_, ⟨i, j, hij, hi, hj⟩, _⟩
  have e : ∀ k : Nat, main_tasks[k]?.map task.TickFct =
      [TickButtons, TickPosition, TickDeath, TickMenu, TickLevel, TickDraw][k]? := by
    intro k
    rw [← List.getElem?_map]
    rfl
  rw [e] at hi hj
  match j, hij, hj with
  | 0, hij, _ => omega
  | 1, hij, _ =>
    have : i = 0 := by omega
    subst this
    simp only [List.getElem?_cons_zero, Option.some.injEq] at hi
    exact TickButtons_ne_TickMenu hi
  | 2, _, hj =>
    simp only [List.getElem?_cons_succ, List.getElem?_cons_zero, Option.some.injEq] at hj
    exact TickDeath_ne_TickPosition hj
  | 3, _, hj =>
    simp only [List.getElem?_cons_succ, List.getElem?_cons_zero, Option.some.injEq] at hj
    exact TickMenu_ne_TickPosition hj
  | 4, _, hj =>
    simp only [List.getElem?_cons_succ, List.getElem?_cons_zero, Option.some.injEq] at hj
    exact TickLevel_ne_TickPosition hj
  | 5, _, hj =>
    simp only [List.getElem?_cons_succ, List.getElem?_cons_zero, Option.some.injEq] at hj
    exact TickDraw_ne_TickPosition hj
  | k + 6, _, hj =>
    simp at hj

/-! ### TickDeath: frame and the clear case -/

theorem TickDeath_body_cases (i : Int) (b : Blackboard) :
    TickDeath_body i b = b ∨ TickDeath_body i b = { b with dead := true } := by
  unfold TickDeath_body
  dsimp only
  split_ifs
  · exact Or.inr rfl
  · exact Or.inl rfl

theorem scan_foldl_frame (lo : Int) (l : List Nat) (b : Blackboard) :
    ∃ d : Bool,
      l.foldl (fun (acc : Blackboard) (k : Nat) => TickDeath_body (lo + (k : Int)) acc) b =
        { b with dead := d } := by
  induction l generalizing b with
  | nil => exact ⟨b.dead, rfl⟩
  | cons a t ih =>
    rw [List.foldl_cons]
    rcases TickDeath_body_cases (lo + (a : Int)) b with h | h
    · rw [h]; exact ih b
    · rw [h]
      obtain ⟨d, hd⟩ := ih { b with dead := true }
      exact ⟨d, hd⟩

/-- C14, as the code has it: a `TickDeath` tick returns the state it was given and changes no
variable other than `dead` and `height`; `height` is unchanged when `0 ≤ height ≤ 128` and is
reset to 64 when `height < 0` or `128 < height`.  In particular `score`, `high_score`,
`game_state`, `frame`, the current-column reference and every column of the level store are the
same after the tick as before. -/
theorem C14_TickDeath_frame (state : Int) (b : Blackboard) :
    (TickDeath state b).1 = state ∧
    (TickDeath state b).2 =
      { b with dead := (TickDeath state b).2.dead, height := (TickDeath state b).2.height } ∧
    (TickDeath state b).2.height = (if b.height < 0 ∨ 128 < b.height then 64 else b.height) ∧
    (TickDeath state b).2.score = b.score ∧
    (TickDeath state b).2.high_score = b.high_score ∧
    (TickDeath state b).2.game_state = b.game_state ∧
    (TickDeath state b).2.frame = b.frame ∧
    (TickDeath state b).2.curr_column = b.curr_column ∧
    (TickDeath state b).2.columns = b.columns := by
  have key : ∃ d : Bool, TickDeath state b =
      (state, { b with dead := d,
                       height := if b.height < 0 ∨ 128 < b.height then 64 else b.height }) := by
    unfold TickDeath
    split_ifs with ha hb
    · exact ⟨true, rfl⟩
    · exact ⟨true, rfl⟩
    · unfold forRange
      obtain ⟨d, hd⟩ := scan_foldl_frame (b.frame - PLAYER_SIZE / 2)
        (List.range (b.frame + PLAYER_SIZE / 2 + 1 - (b.frame - PLAYER_SIZE / 2)).toNat)
        { b with dead := false }
      rw [hd]
      exact ⟨d, rfl⟩
  obtain ⟨d, hd⟩ := key
  rw [hd]
  exact ⟨rfl, rfl, rfl, rfl, rfl, rfl, rfl, rfl, rfl⟩

/-- C14 fails as stated: at `height = 150` the tick changes `height` (to 64). -/
theorem C14_TickDeath_writes_height :
    (TickDeath CHECK { sampleBoard with height := 150 }).2.height = 64 ∧
    (TickDeath CHECK { sampleBoard with height := 150 }).2.height ≠
      ({ sampleBoard with height := 150 } : Blackboard).height := by
  decide

/-- C15, as the code has it: if `0 ≤ height ≤ 128`, the current column has no obstacle, and no
column of the band `frame - 5 .. frame + 5` (index wrapped as in the scan) has an obstacle with
`height - 1 < bottom` or `bottom + gap < height + 2`, then a `TickDeath` tick leaves
`dead = false`; `game_state` is unchanged by every tick. -/
theorem C15_TickDeath_clear (state : Int) (b : Blackboard)
    (h0 : 0 ≤ b.height) (h1 : b.height ≤ 128)
    (hcur : (b.columns b.curr_column).has_pipe = false)
    (hband : ∀ i : Int, b.frame - 5 ≤ i → i ≤ b.frame + 5 →
      (b.columns (wrapped_i i)).has_pipe = true →
      (b.columns (wrapped_i i)).bottom ≤ b.height - 1 ∧
        b.height + 2 ≤ (b.columns (wrapped_i i)).bottom + (b.columns (wrapped_i i)).gap) :
    (TickDeath state b).2.dead = false ∧
    (TickDeath state b).2.game_state = b.game_state := by
  have hg : (TickDeath state b).2.game_state = b.game_state := by
    unfold TickDeath
    split_ifs with ha hb
    · rfl
    · rfl
    · unfold forRange
      obtain ⟨d, hd⟩ := scan_foldl_frame (b.frame - PLAYER_SIZE / 2)
        (List.range (b.frame + PLAYER_SIZE / 2 + 1 - (b.frame - PLAYER_SIZE / 2)).toNat)
        { b with dead := false }
      rw [hd]
  refine ⟨?_, hg⟩
  rw [← Bool.not_eq_true]
  intro hd
  unfold TickDeath at hd
  have ha : ¬ (b.height < 0 ∨ 128 < b.height) := by omega
  have hb : ¬ ((b.columns b.curr_column).has_pipe = true ∧
      (b.height < (b.columns b.curr_column).bottom ∨
        (b.columns b.curr_column).bottom + (b.columns b.curr_column).gap < b.height)) := by
    rw [hcur]; simp
  rw [if_neg ha, if_neg hb] at hd
  have h2 : PLAYER_SIZE / 2 = 5 := by decide
  rw [h2] at hd
  unfold forRange at hd
  rw [(scan_foldl (b.frame - 5) _ { b with dead := false }).2.2] at hd
  simp only [Bool.false_eq_true, false_or, List.mem_range] at hd
  obtain ⟨k, hk, hp, hq⟩ := hd
  have hn : (b.frame + 5 + 1 - (b.frame - 5)).toNat = 11 := by
    have : b.frame + 5 + 1 - (b.frame - 5) = 11 := by ring
    rw [this]; rfl
  rw [hn] at hk
  have := hband (b.frame - 5 + (k : Int)) (by omega) (by omega) hp
  change (b.height - 1 < (b.columns (wrapped_i (b.frame - 5 + (k : Int)))).bottom ∨
    (b.columns (wrapped_i (b.frame - 5 + (k : Int)))).bottom +
      (b.columns (wrapped_i (b.frame - 5 + (k : Int)))).gap < b.height + 2) at hq
  omega

/-- Instance of C15: the scenario `height = 64`, phase `PLAY`, empty level store. -/
theorem C15_TickDeath_clear_witness :
    (TickDeath CHECK { sampleBoard with game_state := GAME_STATE.PLAY }).2.dead = false ∧
    (TickDeath CHECK { sampleBoard with game_state := GAME_STATE.PLAY }).2.game_state
      = GAME_STATE.PLAY :=
  C15_TickDeath_clear CHECK { sampleBoard with game_state := GAME_STATE.PLAY }
    (by decide) (by decide) rfl (by intro i _ _ h; exact absurd h (by simp [sampleBoard, emptyColumns]))

/-- C15 fails as stated: with `height = 64`, phase `PLAY` and no obstacle at the current column
(index 31), an obstacle with `bottom = 80` at column 32, inside the band around `frame = 30`,
makes the tick set `dead = true`. -/
theorem C15_TickDeath_band_kills :
    (0 ≤ bandBoard.height ∧ bandBoard.height ≤ 128) ∧
    bandBoard.height = 64 ∧ bandBoard.game_state = GAME_STATE.PLAY ∧
    (bandBoard.columns bandBoard.curr_column).has_pipe = false ∧
    (TickDeath CHECK bandBoard).2.dead = true := by
  decide

/-! ### TickButtons: the control flag -/

theorem buttonsAfter_succ (pin : Nat → Nat) (j : Nat) (s : Int × Blackboard) :
    buttonsAfter pin (j + 1) s =
      TickButtons (buttonsAfter pin j s).1 { (buttonsAfter pin j s).2 with PINC := pin j } := rfl

/-- One tick of `TickButtons` from one of its three states, when the control flag is true
exactly in `SET_CONTROL`: the same holds after the tick, and the tick ends in `SET_CONTROL`
exactly when the control input is high and the tick was taken in `SET_CONTROL`, or in `IDLE`
with the jump input low. -/
theorem TickButtons_control_step (state : Int) (b : Blackboard)
    (hs : state = IDLE ∨ state = SET_CONTROL ∨ state = SET_JUMP)
    (hinv : b.control = true ↔ state = SET_CONTROL) :
    ((TickButtons state b).1 = IDLE ∨ (TickButtons state b).1 = SET_CONTROL ∨
      (TickButtons state b).1 = SET_JUMP) ∧
    ((TickButtons state b).2.control = true ↔ (TickButtons state b).1 = SET_CONTROL) ∧
    ((TickButtons state b).1 = SET_CONTROL ↔
      (GetBit b.PINC 0 = true ∧
        (state = SET_CONTROL ∨ (state = IDLE ∧ GetBit b.PINC 1 = false)))) := by
  rcases hs with e | e | e
  · subst e
    have hc : b.control = false := by
      rw [← Bool.not_eq_true, hinv]; decide
    cases h0 : GetBit b.PINC 0 <;> cases h1 : GetBit b.PINC 1 <;>
      simp [TickButtons, h0, h1, hc, IDLE, SET_CONTROL, SET_JUMP]
  · subst e
    cases h0 : GetBit b.PINC 0 <;>
      simp [TickButtons, h0, IDLE, SET_CONTROL, SET_JUMP]
  · subst e
    have hc : b.control = false := by
      rw [← Bool.not_eq_true, hinv]; decide
    cases h0 : GetBit b.PINC 0 <;> cases h1 : GetBit b.PINC 1 <;>
      simp [TickButtons, h0, h1, hc, IDLE, SET_CONTROL, SET_JUMP]

theorem buttonsAfter_control_inv (pin : Nat → Nat) (b : Blackboard) (hc : b.control = false) :
    ∀ n : Nat,
      ((buttonsAfter pin n (IDLE, b)).1 = IDLE ∨ (buttonsAfter pin n (IDLE, b)).1 = SET_CONTROL ∨
        (buttonsAfter pin n (IDLE, b)).1 = SET_JUMP) ∧
      ((buttonsAfter pin n (IDLE, b)).2.control = true ↔
        (buttonsAfter pin n (IDLE, b)).1 = SET_CONTROL) := by
  intro n
  induction n with
  | zero =>
    refine ⟨Or.inl rfl, ?_⟩
    show b.control = true ↔ IDLE = SET_CONTROL
    rw [hc]; decide
  | succ n ih =>
    rw [buttonsAfter_succ]
    have := TickButtons_control_step (buttonsAfter pin n (IDLE, b)).1
      { (buttonsAfter pin n (IDLE, b)).2 with PINC := pin n } ih.1 ih.2
    exact ⟨this.1, this.2.1⟩

/-- C16, as the code has it: for every sequence of sampled inputs fed to `TickButtons` from
`IDLE` with the control flag false, after each tick the control flag is true exactly when the
FSM is in `SET_CONTROL`; the flag is false after every tick on which the control input is
sampled low; and after a tick on which the control input is sampled high the flag is true
exactly when the tick was taken in `SET_CONTROL` (whatever the jump input) or in `IDLE` with
the jump input low. -/
theorem C16_control_flag (pin : Nat → Nat) (b : Blackboard) (hc : b.control = false)
    (n : Nat) :
    ((buttonsAfter pin (n + 1) (IDLE, b)).2.control = true ↔
      (buttonsAfter pin (n + 1) (IDLE, b)).1 = SET_CONTROL) ∧
    (GetBit (pin n) 0 = false → (buttonsAfter pin (n + 1) (IDLE, b)).2.control = false) ∧
    (GetBit (pin n) 0 = true →
      ((buttonsAfter pin (n + 1) (IDLE, b)).2.control = true ↔
        ((buttonsAfter pin n (IDLE, b)).1 = SET_CONTROL ∨
          ((buttonsAfter pin n (IDLE, b)).1 = IDLE ∧ GetBit (pin n) 1 = false)))) := by
  have inv := buttonsAfter_control_inv pin b hc n
  have st := TickButtons_control_step (buttonsAfter pin n (IDLE, b)).1
    { (buttonsAfter pin n (IDLE, b)).2 with PINC := pin n } inv.1 inv.2
  rw [buttonsAfter_succ]
  obtain ⟨_, s2, s3⟩ := st
  refine ⟨s2, ?_, ?_⟩
  · intro h0
    rw [← Bool.not_eq_true, s2, s3]
    intro hh
    have : GetBit (pin n) 0 = true := hh.1
    rw [h0] at this
    exact absurd this (by decide)
  · intro h0
    rw [s2, s3]
    constructor
    · intro hh; exact hh.2
    · intro hh; exact ⟨h0, hh⟩

/-- Instance of C16: the control button (bit 0 of `PINC`) held alone; the flag is true after
the second tick of the hold. -/
theorem C16_control_flag_witness :
    (buttonsAfter (fun _ => 1) (1 + 1) (IDLE, sampleBoard)).2.control = true :=
  ((C16_control_flag (fun _ => 1) sampleBoard rfl 1).2.2 (by decide)).mpr (Or.inl (by decide))

/-- C16 fails as stated: when the control input is first sampled high together with the jump
input (both bits of `PINC` set), the tick taken in `IDLE` leaves the control flag false. -/
theorem C16_control_with_jump_ignored :
    GetBit 3 0 = true ∧ GetBit 3 1 = true ∧
    (buttonsAfter (fun _ => 3) 1 (IDLE, sampleBoard)).2.control = false ∧
    (buttonsAfter (fun _ => 3) 1 (IDLE, sampleBoard)).1 = IDLE := by
  decide

/-! ### TimerISR: the elapsed-time invariant -/

/-- The loop body keeps `elapsedTime` a multiple of `GCD_PERIOD` not above the period. -/
theorem TimerISR_body_inv (t : task) (b : Blackboard) (k m : Nat)
    (hk : 1 ≤ k) (hp : t.period = k * GCD_PERIOD) (hlt : t.period < 4294967296)
    (he : t.elapsedTime = m * GCD_PERIOD) (hm : m ≤ k) :
    ∃ m2 : Nat, (TimerISR_body t b).1.period = k * GCD_PERIOD ∧
      (TimerISR_body t b).1.elapsedTime = m2 * GCD_PERIOD ∧ m2 ≤ k := by
  obtain ⟨_, h2, h3⟩ := TimerISR_body_spec t b
  have hG := GCD_PERIOD_pos
  rw [hp] at hlt
  by_cases hf : t.elapsedTime = t.period
  · refine ⟨1, h2.trans hp, ?_, hk⟩
    rw [h3, if_pos hf]
    unfold wrapUInt32
    have hle : GCD_PERIOD ≤ k * GCD_PERIOD := Nat.le_mul_of_pos_left _ hk
    rw [Nat.zero_add, Nat.one_mul]
    exact Nat.mod_eq_of_lt (by omega)
  · have hmk : m ≠ k := by
      intro e
      apply hf
      rw [he, hp, e]
    refine ⟨m + 1, h2.trans hp, ?_, by omega⟩
    rw [h3, if_neg hf, he]
    unfold wrapUInt32
    have hle : (m + 1) * GCD_PERIOD ≤ k * GCD_PERIOD := Nat.mul_le_mul_right _ (by omega)
    have e2 : m * GCD_PERIOD + GCD_PERIOD = (m + 1) * GCD_PERIOD := by ring
    rw [e2]
    exact Nat.mod_eq_of_lt (by omega)

theorem TimerISR_inv (ts : List task) (b : Blackboard)
    (h : ∀ t ∈ ts, ∃ k m : Nat, 1 ≤ k ∧ t.period = k * GCD_PERIOD ∧ t.period < 4294967296 ∧
      t.elapsedTime = m * GCD_PERIOD ∧ m ≤ k) :
    ∀ t ∈ (TimerISR ts b).1, ∃ k m : Nat, 1 ≤ k ∧ t.period = k * GCD_PERIOD ∧
      t.period < 4294967296 ∧ t.elapsedTime = m * GCD_PERIOD ∧ m ≤ k := by
  induction ts generalizing b with
  | nil =>
    intro t ht
    simp [TimerISR] at ht
  | cons a ts ih =>
    intro t ht
    simp only [TimerISR, List.mem_cons] at ht
    rcases ht with e | ht
    · obtain ⟨k, m, hk, hp, hlt, he, hm⟩ := h a (List.mem_cons_self a ts)
      obtain ⟨m2, q1, q2, q3⟩ := TimerISR_body_inv a b k m hk hp hlt he hm
      subst e
      exact ⟨k, m2, hk, q1, by rw [q1, ← hp]; exact hlt, q2, q3⟩
    · exact ih (TimerISR_body a b).2.1 (fun t ht => h t (List.mem_cons_of_mem a ht)) t ht

/-- C19: if every task's period is a positive multiple of `GCD_PERIOD` (and fits the 32-bit
`unsigned long`) and its `elapsedTime` is a multiple of `GCD_PERIOD` that does not exceed its
period, then after any number of `TimerISR` calls every task's `elapsedTime` does not exceed
its period.  And within a call, for the task at index `i`: when it is due
(`elapsedTime = period`) its tick function is applied to its state and to the shared variables
as the earlier entries have left them, the returned state is stored, the returned variables
are passed on, and `elapsedTime` is reset to 0 (and then advanced by `GCD_PERIOD`); when it is
not due the tick function is not applied, the state and the shared variables pass through
unchanged, and `elapsedTime` is not reset but only advanced by `GCD_PERIOD`.  The flag reported
by `TimerISR` is true in the first case and false in the second. -/
theorem C19_elapsed_never_exceeds_period :
    (∀ (ts : List task) (b : Blackboard),
      (∀ t ∈ ts, ∃ k m : Nat, 1 ≤ k ∧ t.period = k * GCD_PERIOD ∧ t.period < 4294967296 ∧
        t.elapsedTime = m * GCD_PERIOD ∧ t.elapsedTime ≤ t.period) →
      ∀ n : Nat, ∀ t ∈ (TimerISR_after n (ts, b)).1, t.elapsedTime ≤ t.period) ∧
    (∀ (ts : List task) (b : Blackboard) (i : Nat) (t : task), ts[i]? = some t →
      (t.elapsedTime = t.period →
        (TimerISR ts b).2.2.getD i false = true ∧
        (TimerISR ts b).1[i]? = some
          { t with
            state :=
              ((t.TickFct (wrapInt16 (t.state : Int)) (boardBefore ts b i)).1 % 65536).toNat,
            elapsedTime := wrapUInt32 (0 + GCD_PERIOD) } ∧
        boardBefore ts b (i + 1) =
          (t.TickFct (wrapInt16 (t.state : Int)) (boardBefore ts b i)).2) ∧
      (t.elapsedTime ≠ t.period →
        (TimerISR ts b).2.2.getD i false = false ∧
        (TimerISR ts b).1[i]? = some
          { t with elapsedTime := wrapUInt32 (t.elapsedTime + GCD_PERIOD) } ∧
        boardBefore ts b (i + 1) = boardBefore ts b i)) ∧
    (∀ (ts : List task) (b : Blackboard) (i : Nat) (t : task), ts[i]? = some t →
      ∃ u, (TimerISR ts b).1[i]? = some u ∧
        ((TimerISR ts b).2.2.getD i false = true →
          u.elapsedTime = wrapUInt32 (0 + GCD_PERIOD)) ∧
        ((TimerISR ts b).2.2.getD i false = false →
          u.elapsedTime = wrapUInt32 (t.elapsedTime + GCD_PERIOD))) ∧
    (∀ (ts : List task) (b : Blackboard),
      boardBefore ts b 0 = b ∧ (TimerISR ts b).2.1 = boardBefore ts b ts.length) := by
  have hG := GCD_PERIOD_pos
  refine ⟨?_, ?_, ?_, ?_⟩
  · intro ts b h n
    have h2 : ∀ t ∈ ts, ∃ k m : Nat, 1 ≤ k ∧ t.period = k * GCD_PERIOD ∧
        t.period < 4294967296 ∧ t.elapsedTime = m * GCD_PERIOD ∧ m ≤ k := by
      intro t ht
      obtain ⟨k, m, hk, hp, hlt, he, hle⟩ := h t ht
      refine ⟨k, m, hk, hp, hlt, he, ?_⟩
      rw [he, hp] at hle
      exact Nat.le_of_mul_le_mul_right hle hG
    have inv : ∀ n : Nat, ∀ t ∈ (TimerISR_after n (ts, b)).1, ∃ k m : Nat, 1 ≤ k ∧
        t.period = k * GCD_PERIOD ∧ t.period < 4294967296 ∧
        t.elapsedTime = m * GCD_PERIOD ∧ m ≤ k := by
      intro n
      induction n with
      | zero => exact h2
      | succ n ih => exact TimerISR_inv _ _ ih
    intro t ht
    obtain ⟨k, m, _, hp, _, he, hm⟩ := inv n t ht
    rw [he, hp]
    exact Nat.mul_le_mul_right _ hm
  · intro ts b i t h
    exact TimerISR_step ts b i t h
  · intro ts b i t h
    obtain ⟨u, hu, _, hue⟩ := TimerISR_task ts b i t h
    refine ⟨u, hu, ?_, ?_⟩
    · rw [TimerISR_fired, List.getD_eq_getElem?_getD, List.getElem?_map, h]
      simp only [Option.map_some', Option.getD_some, decide_eq_true_eq]
      intro hf
      rw [hue, if_pos hf]
    · rw [TimerISR_fired, List.getD_eq_getElem?_getD, List.getElem?_map, h]
      simp only [Option.map_some', Option.getD_some, decide_eq_false_iff_not]
      intro hf
      rw [hue, if_neg hf]
  · intro ts b
    exact ⟨boardBefore_zero ts b, boardBefore_length ts b⟩

/-- Instance of C19 on the task table of `main`: after 7 calls of `TimerISR` every task has
`elapsedTime ≤ period`; in the first call the Input task is not due, so `TickButtons` is not
applied and `elapsedTime` only advances; in the second call it is due, `TickButtons` is applied
(it raises the control flag, the control button being held) and `elapsedTime` restarts. -/
theorem C19_elapsed_never_exceeds_period_witness :
    (∀ t ∈ (TimerISR_after 7 (main_tasks, sampleBoard)).1, t.elapsedTime ≤ t.period) ∧
    ((TimerISR main_tasks pressedBoard).1[0]?.map task.elapsedTime
        = some (wrapUInt32 (0 + GCD_PERIOD)) ∧
      boardBefore main_tasks pressedBoard (0 + 1) = boardBefore main_tasks pressedBoard 0) ∧
    ((TimerISR (TimerISR_after 1 (main_tasks, pressedBoard)).1
        (TimerISR_after 1 (main_tasks, pressedBoard)).2).1[0]?.map task.elapsedTime
        = some (wrapUInt32 (0 + GCD_PERIOD)) ∧
      (boardBefore (TimerISR_after 1 (main_tasks, pressedBoard)).1
        (TimerISR_after 1 (main_tasks, pressedBoard)).2 (0 + 1)).control = true ∧
      (boardBefore (TimerISR_after 1 (main_tasks, pressedBoard)).1
        (TimerISR_after 1 (main_tasks, pressedBoard)).2 0).control = false) := by
  refine ⟨?_, ?_, ?_⟩
  · exact C19_elapsed_never_exceeds_period.1 main_tasks sampleBoard
      (by
        intro t ht
        refine ⟨1, 0, le_refl 1, ?_, ?_, ?_, ?_⟩ <;>
          (simp only [main_tasks, List.mem_cons, List.mem_singleton, List.not_mem_nil,
            or_false] at ht
           rcases ht with e | e | e | e | e | e <;> subst e <;> decide))
      7
  · obtain ⟨_, q2, q3⟩ := (C19_elapsed_never_exceeds_period.2.1 main_tasks pressedBoard 0
      { period := TASK1_PERIOD, state := IDLE.toNat, elapsedTime := 0, TickFct := TickButtons }
      rfl).2 (by decide)
    refine ⟨?_, q3⟩
    rw [q2]
    rfl
  · obtain ⟨_, q2, q3⟩ := (C19_elapsed_never_exceeds_period.2.1
      (TimerISR_after 1 (main_tasks, pressedBoard)).1
      (TimerISR_after 1 (main_tasks, pressedBoard)).2 0
      { period := TASK1_PERIOD, state := IDLE.toNat, elapsedTime := wrapUInt32 (0 + GCD_PERIOD),
        TickFct := TickButtons }
      rfl).1 (by decide)
    refine ⟨?_, ?_, by decide⟩
    · rw [q2]
      rfl
    · rw [q3]
      decide

/-! ### TickMenu: the phase is a function of the Menu state -/

/-- One tick of `TickMenu` from one of its five states, when `game_state` is `PLAY` in
`PLAYING`, `RESET` in `RESETTING` and `PAUSE` in the other states: the same holds after the
tick, and a tick taken in `RESETTING` ends in `HOLDING_PAUSED`. -/
theorem TickMenu_phase_step (state : Int) (b : Blackboard)
    (hs : state = PAUSED ∨ state = HOLDING_PLAY_RESET ∨ state = PLAYING ∨ state = RESETTING ∨
      state = HOLDING_PAUSED)
    (hinv : b.game_state =
      if state = PLAYING then GAME_STATE.PLAY
      else if state = RESETTING then GAME_STATE.RESET else GAME_STATE.PAUSE) :
    ((TickMenu state b).1 = PAUSED ∨ (TickMenu state b).1 = HOLDING_PLAY_RESET ∨
      (TickMenu state b).1 = PLAYING ∨ (TickMenu state b).1 = RESETTING ∨
      (TickMenu state b).1 = HOLDING_PAUSED) ∧
    ((TickMenu state b).2.game_state =
      if (TickMenu state b).1 = PLAYING then GAME_STATE.PLAY
      else if (TickMenu state b).1 = RESETTING then GAME_STATE.RESET else GAME_STATE.PAUSE) ∧
    (state = RESETTING → (TickMenu state b).1 = HOLDING_PAUSED) := by
  have hr : ∀ c : Blackboard, (TickMenu_resetting c).game_state = GAME_STATE.RESET :=
    fun c => (TickMenu_resetting_effect c).1
  rcases hs with e | e | e | e | e
  · subst e
    have hg : b.game_state = GAME_STATE.PAUSE := by
      simpa [PAUSED, PLAYING, RESETTING] using hinv
    by_cases hc : b.control = true <;>
      simp [TickMenu, hc, hg, PAUSED, HOLDING_PLAY_RESET, PLAYING, RESETTING, HOLDING_PAUSED]
  · subst e
    have hg : b.game_state = GAME_STATE.PAUSE := by
      simpa [HOLDING_PLAY_RESET, PLAYING, RESETTING] using hinv
    by_cases hc : b.control = true <;> by_cases hl : b.menu_cnt < 30 <;>
      by_cases he : b.menu_cnt = 30 <;>
      simp [TickMenu, hr, hc, hl, he, hg, reset_timer, PAUSED,
        HOLDING_PLAY_RESET, PLAYING, RESETTING, HOLDING_PAUSED]
  · subst e
    by_cases hc : b.control = true <;> by_cases hd : b.dead = true <;>
      simp [TickMenu, hr, hc, hd, PAUSED, HOLDING_PLAY_RESET, PLAYING,
        RESETTING, HOLDING_PAUSED]
  · subst e
    simp [TickMenu, PAUSED, HOLDING_PLAY_RESET, PLAYING, RESETTING, HOLDING_PAUSED]
  · subst e
    have hg : b.game_state = GAME_STATE.PAUSE := by
      simpa [HOLDING_PAUSED, PLAYING, RESETTING] using hinv
    by_cases hc : b.control = true <;>
      simp [TickMenu, hc, hg, PAUSED, HOLDING_PLAY_RESET, PLAYING, RESETTING, HOLDING_PAUSED]

theorem menuAfter_phase_inv (ctl dd : Nat → Bool) (b : Blackboard)
    (hg : b.game_state = GAME_STATE.PAUSE) :
    ∀ n : Nat,
      ((menuAfter ctl dd n (PAUSED, b)).1 = PAUSED ∨
        (menuAfter ctl dd n (PAUSED, b)).1 = HOLDING_PLAY_RESET ∨
        (menuAfter ctl dd n (PAUSED, b)).1 = PLAYING ∨
        (menuAfter ctl dd n (PAUSED, b)).1 = RESETTING ∨
        (menuAfter ctl dd n (PAUSED, b)).1 = HOLDING_PAUSED) ∧
      ((menuAfter ctl dd n (PAUSED, b)).2.game_state =
        if (menuAfter ctl dd n (PAUSED, b)).1 = PLAYING then GAME_STATE.PLAY
        else if (menuAfter ctl dd n (PAUSED, b)).1 = RESETTING then GAME_STATE.RESET
        else GAME_STATE.PAUSE) := by
  intro n
  induction n with
  | zero =>
    refine ⟨Or.inl rfl, ?_⟩
    show b.game_state = _
    rw [hg]
    rfl
  | succ n ih =>
    rw [menuAfter_succ]
    have := TickMenu_phase_step (menuAfter ctl dd n (PAUSED, b)).1
      { (menuAfter ctl dd n (PAUSED, b)).2 with control := ctl n, dead := dd n } ih.1 ih.2
    exact ⟨this.1, this.2.1⟩

/-- C20: in every configuration reached from the initial one (Menu state `PAUSED`,
`game_state = PAUSE`; the hold counter may have any value, in particular 0) by `TickMenu` ticks
under arbitrary control and dead inputs, `game_state` is `PLAY` exactly when the Menu state is
`PLAYING`, `RESET` exactly when it is `RESETTING`, and `PAUSE` exactly in `PAUSED`,
`HOLDING_PLAY_RESET` and `HOLDING_PAUSED`; consequently `game_state = RESET` does not hold
after two consecutive ticks. -/
theorem C20_phase_determined_by_menu_state (ctl dd : Nat → Bool) (b : Blackboard)
    (hg : b.game_state = GAME_STATE.PAUSE) (n : Nat) :
    ((menuAfter ctl dd n (PAUSED, b)).2.game_state = GAME_STATE.PLAY ↔
      (menuAfter ctl dd n (PAUSED, b)).1 = PLAYING) ∧
    ((menuAfter ctl dd n (PAUSED, b)).2.game_state = GAME_STATE.RESET ↔
      (menuAfter ctl dd n (PAUSED, b)).1 = RESETTING) ∧
    ((menuAfter ctl dd n (PAUSED, b)).2.game_state = GAME_STATE.PAUSE ↔
      ((menuAfter ctl dd n (PAUSED, b)).1 = PAUSED ∨
        (menuAfter ctl dd n (PAUSED, b)).1 = HOLDING_PLAY_RESET ∨
        (menuAfter ctl dd n (PAUSED, b)).1 = HOLDING_PAUSED)) ∧
    ¬ ((menuAfter ctl dd n (PAUSED, b)).2.game_state = GAME_STATE.RESET ∧
        (menuAfter ctl dd (n + 1) (PAUSED, b)).2.game_state = GAME_STATE.RESET) := by
  obtain ⟨hs, hv⟩ := menuAfter_phase_inv ctl dd b hg n
  have hnext := TickMenu_phase_step (menuAfter ctl dd n (PAUSED, b)).1
    { (menuAfter ctl dd n (PAUSED, b)).2 with control := ctl n, dead := dd n } hs hv
  rw [menuAfter_succ]
  generalize menuAfter ctl dd n (PAUSED, b) = s at hs hv hnext
  obtain ⟨_, n2, n3⟩ := hnext
  have last : s.1 = RESETTING →
      (TickMenu s.1 { s.2 with control := ctl n, dead := dd n }).2.game_state
        ≠ GAME_STATE.RESET := by
    intro e
    rw [n2, n3 e]
    decide
  rcases hs with e | e | e | e | e
  · rw [e] at hv
    have hv2 : s.2.game_state = GAME_STATE.PAUSE := hv
    rw [hv2, e]
    simp [PAUSED, HOLDING_PLAY_RESET, PLAYING, RESETTING, HOLDING_PAUSED]
  · rw [e] at hv
    have hv2 : s.2.game_state = GAME_STATE.PAUSE := hv
    rw [hv2, e]
    simp [PAUSED, HOLDING_PLAY_RESET, PLAYING, RESETTING, HOLDING_PAUSED]
  · rw [e] at hv
    have hv2 : s.2.game_state = GAME_STATE.PLAY := hv
    rw [hv2, e]
    simp [PAUSED, HOLDING_PLAY_RESET, PLAYING, RESETTING, HOLDING_PAUSED]
  · have l := last e
    rw [e] at hv l ⊢
    have hv2 : s.2.game_state = GAME_STATE.RESET := hv
    rw [hv2]
    refine ⟨by simp [PLAYING, RESETTING], by simp, ?_, ?_⟩
    · simp [PAUSED, HOLDING_PLAY_RESET, RESETTING, HOLDING_PAUSED]
    · intro h
      exact l h.2
  · rw [e] at hv
    have hv2 : s.2.game_state = GAME_STATE.PAUSE := hv
    rw [hv2, e]
    simp [PAUSED, HOLDING_PLAY_RESET, PLAYING, RESETTING, HOLDING_PAUSED]

/-- Instance of C20: control held for one tick from the initial configuration, then released;
after tick 2 the Menu state is `PLAYING` and `game_state` is `PLAY`. -/
theorem C20_phase_determined_by_menu_state_witness :
    (menuAfter (fun j => decide (j < 1)) (fun _ => false) 2 (PAUSED, sampleBoard)).2.game_state
      = GAME_STATE.PLAY :=
  (C20_phase_determined_by_menu_state (fun j => decide (j < 1)) (fun _ => false) sampleBoard
    rfl 2).1.mpr (by decide)

/-! ### The level store: create_level and refresh_pipe -/

theorem rand_bottom_range (r : Nat) :
    10 ≤ Int.tmod (r : Int) (86 - 10 + 1) + 10 ∧ Int.tmod (r : Int) (86 - 10 + 1) + 10 ≤ 86 := by
  have h1 : 0 ≤ Int.tmod (r : Int) (86 - 10 + 1) := Int.tmod_nonneg _ (Int.ofNat_nonneg r)
  have h2 : Int.tmod (r : Int) (86 - 10 + 1) < 86 - 10 + 1 := Int.tmod_lt_of_pos _ (by decide)
  omega

/-- Effect of one iteration of the loop of `create_level`: only `columns[i]` is written; it
keeps its `gap`; it receives an obstacle with `bottom` in `[10, 86]` when `i` is a nonzero
multiple of `PIPE_SPACING`, loses `has_pipe` but keeps `bottom` when `i = 0`, and is cleared
otherwise. -/
theorem create_level_body_spec (i : Int) (b : Blackboard) :
    (create_level_body i b).level_i = b.level_i ∧
    (∀ k : Int, k ≠ i → (create_level_body i b).columns k = b.columns k) ∧
    ((create_level_body i b).columns i).gap = (b.columns i).gap ∧
    (Int.tmod i PIPE_SPACING = 0 ∧ i ≠ 0 →
      ((create_level_body i b).columns i).has_pipe = true ∧
      10 ≤ ((create_level_body i b).columns i).bottom ∧
      ((create_level_body i b).columns i).bottom ≤ 86) ∧
    (i = 0 →
      ((create_level_body i b).columns i).has_pipe = false ∧
      ((create_level_body i b).columns i).bottom = (b.columns i).bottom) ∧
    (Int.tmod i PIPE_SPACING ≠ 0 →
      ((create_level_body i b).columns i).has_pipe = false ∧
      ((create_level_body i b).columns i).bottom = -1) := by
  have hr := rand_bottom_range (b.rand_seq b.rand_calls)
  unfold create_level_body
  dsimp only
  split_ifs with h1 h2
  · refine ⟨rfl, ?_, ?_, ?_, ?_, ?_⟩
    · intro k hk
      simp [setColumn, rand, hk]
    · simp [setColumn, rand]
    · intro _
      simp only [setColumn, rand, if_true]
      exact ⟨trivial, hr.1, hr.2⟩
    · intro h0; exact absurd h0 h1.2
    · intro hne; exact absurd h1.1 hne
  · refine ⟨rfl, ?_, ?_, ?_, ?_, ?_⟩
    · intro k hk
      simp [setColumn, hk]
    · simp [setColumn]
    · intro h; exact absurd h h1
    · intro _
      simp [setColumn]
    · intro hne
      exfalso
      apply hne
      rw [h2]
      rfl
  · refine ⟨rfl, ?_, ?_, ?_, ?_, ?_⟩
    · intro k hk
      simp [setColumn, hk]
    · simp [setColumn]
    · intro h; exact absurd h h1
    · intro h0; exact absurd h0 h2
    · intro _
      simp [setColumn]

/-- The store after the first `n` iterations of the loop of `create_level`. -/
theorem create_level_fold (n : Nat) (b : Blackboard) :
    ((List.range n).foldl
        (fun (acc : Blackboard) (k : Nat) => create_level_body (0 + (k : Int)) acc) b).level_i
      = b.level_i ∧
    ∀ j : Int,
      (((List.range n).foldl
          (fun (acc : Blackboard) (k : Nat) => create_level_body (0 + (k : Int)) acc)
          b).columns j).gap = (b.columns j).gap ∧
      (¬ (0 ≤ j ∧ j < (n : Int)) →
        ((List.range n).foldl
          (fun (acc : Blackboard) (k : Nat) => create_level_body (0 + (k : Int)) acc)
          b).columns j = b.columns j) ∧
      (0 ≤ j → j < (n : Int) →
        (Int.tmod j PIPE_SPACING = 0 ∧ j ≠ 0 →
          (((List.range n).foldl
            (fun (acc : Blackboard) (k : Nat) => create_level_body (0 + (k : Int)) acc)
            b).columns j).has_pipe = true ∧
          10 ≤ (((List.range n).foldl
            (fun (acc : Blackboard) (k : Nat) => create_level_body (0 + (k : Int)) acc)
            b).columns j).bottom ∧
          (((List.range n).foldl
            (fun (acc : Blackboard) (k : Nat) => create_level_body (0 + (k : Int)) acc)
            b).columns j).bottom ≤ 86) ∧
        (j = 0 →
          (((List.range n).foldl
            (fun (acc : Blackboard) (k : Nat) => create_level_body (0 + (k : Int)) acc)
            b).columns j).has_pipe = false ∧
          (((List.range n).foldl
            (fun (acc : Blackboard) (k : Nat) => create_level_body (0 + (k : Int)) acc)
            b).columns j).bottom = (b.columns j).bottom) ∧
        (Int.tmod j PIPE_SPACING ≠ 0 →
          (((List.range n).foldl
            (fun (acc : Blackboard) (k : Nat) => create_level_body (0 + (k : Int)) acc)
            b).columns j).has_pipe = false ∧
          (((List.range n).foldl
            (fun (acc : Blackboard) (k : Nat) => create_level_body (0 + (k : Int)) acc)
            b).columns j).bottom = -1)) := by
  induction n with
  | zero =>
    refine ⟨rfl, fun j => ⟨rfl, fun _ => rfl, ?_⟩⟩
    intro h0 h1
    exfalso
    simp at h1
    omega
  | succ n ih =>
    rw [List.range_succ, List.foldl_append]
    simp only [List.foldl_cons, List.foldl_nil]
    generalize (List.range n).foldl
      (fun (acc : Blackboard) (k : Nat) => create_level_body (0 + (k : Int)) acc) b = r at ih
    obtain ⟨ihl, ihc⟩ := ih
    obtain ⟨s1, s2, s3, s4, s5, s6⟩ := create_level_body_spec (0 + (n : Int)) r
    refine ⟨s1.trans ihl, ?_⟩
    intro j
    by_cases hj : j = 0 + (n : Int)
    · subst hj
      obtain ⟨g, un, _⟩ := ihc (0 + (n : Int))
      have hun := un (by omega)
      refine ⟨s3.trans g, ?_, ?_⟩
      · intro h
        exfalso
        apply h
        push_cast
        omega
      · intro _ _
        refine ⟨s4, ?_, s6⟩
        intro h0
        rw [← hun]
        exact s5 h0
    · rw [s2 j hj]
      obtain ⟨g, un, pr⟩ := ihc j
      refine ⟨g, ?_, ?_⟩
      · intro h
        apply un
        intro hh
        apply h
        push_cast
        omega
      · intro h0 h1
        apply pr h0
        push_cast at h1
        omega

/-- The store after `create_level`, for the indices of the array. -/
theorem create_level_spec (b : Blackboard) :
    (create_level b).level_i = b.level_i ∧
    ∀ j : Int, 0 ≤ j → j < LEVEL_SIZE →
      ((create_level b).columns j).gap = (b.columns j).gap ∧
      (Int.tmod j PIPE_SPACING = 0 ∧ j ≠ 0 →
        ((create_level b).columns j).has_pipe = true ∧
        10 ≤ ((create_level b).columns j).bottom ∧ ((create_level b).columns j).bottom ≤ 86) ∧
      (j = 0 →
        ((create_level b).columns j).has_pipe = false ∧
        ((create_level b).columns j).bottom = (b.columns j).bottom) ∧
      (Int.tmod j PIPE_SPACING ≠ 0 →
        ((create_level b).columns j).has_pipe = false ∧
        ((create_level b).columns j).bottom = -1) := by
  have hn : (LEVEL_SIZE - 0).toNat = 128 := by decide
  unfold create_level forRange
  rw [hn]
  obtain ⟨h1, h2⟩ := create_level_fold 128 b
  refine ⟨h1, ?_⟩
  intro j h0 hj
  obtain ⟨g, _, pr⟩ := h2 j
  exact ⟨g, pr h0 (by unfold LEVEL_SIZE at hj; exact_mod_cast hj)⟩

/-- Effect of `refresh_pipe`: only `columns[i - PLAYER_OFFSET]` is written; it keeps its `gap`
and receives an obstacle with `bottom` in `[10, 86]`. -/
theorem refresh_pipe_spec (i : Int) (b : Blackboard) :
    (∀ k : Int, k ≠ i - PLAYER_OFFSET → (refresh_pipe i b).columns k = b.columns k) ∧
    ((refresh_pipe i b).columns (i - PLAYER_OFFSET)).gap = (b.columns (i - PLAYER_OFFSET)).gap ∧
    ((refresh_pipe i b).columns (i - PLAYER_OFFSET)).has_pipe = true ∧
    10 ≤ ((refresh_pipe i b).columns (i - PLAYER_OFFSET)).bottom ∧
    ((refresh_pipe i b).columns (i - PLAYER_OFFSET)).bottom ≤ 86 := by
  have hr := rand_bottom_range (b.rand_seq b.rand_calls)
  unfold refresh_pipe
  dsimp only
  refine ⟨?_, ?_, ?_, ?_, ?_⟩
  · intro k hk
    simp [setColumn, rand, hk]
  · simp [setColumn, rand]
  · simp [setColumn, rand]
  · simp only [setColumn, rand, if_true]
    exact hr.1
  · simp only [setColumn, rand, if_true]
    exact hr.2

/-- A tick of `TickLevel` leaves the store as it is, or has called `refresh_pipe` with the
cursor at a nonzero position whose remainder modulo `PIPE_SPACING` is `PIPE_SPACING - 1`. -/
theorem TickLevel_columns (state : Int) (b : Blackboard) :
    (TickLevel state b).2.columns = b.columns ∨
    (Int.tmod b.level_i PIPE_SPACING = PIPE_SPACING - 1 ∧ b.level_i ≠ 0 ∧
      ∃ c : Blackboard, c.columns = b.columns ∧
        (TickLevel state b).2.columns = (refresh_pipe b.level_i c).columns) := by
  unfold TickLevel
  dsimp only
  split_ifs with h1 h2 h3 h4 h5 h6 h7 h8 h9
  all_goals first
    | exact Or.inl rfl
    | exact Or.inr ⟨(by assumption : _ ∧ _).1, (by assumption : _ ∧ _).2, _, rfl, rfl⟩

/-- A tick of `TickDraw` leaves the store and the cursor as they are, or has called
`create_level`. -/
theorem TickDraw_columns (state : Int) (b : Blackboard) :
    (TickDraw state b).2 = b ∨ (TickDraw state b).2 = create_level b := by
  unfold TickDraw
  by_cases h1 : state = SETUP
  · rw [if_pos h1]
    exact Or.inr rfl
  · rw [if_neg h1]
    by_cases h2 : state = DRAW
    · rw [if_pos h2]
      exact Or.inl rfl
    · rw [if_neg h2]
      exact Or.inl rfl

/-! ### The level store in reachable configurations -/

/-- `create_level` establishes the store invariant from a store whose columns carry the
constant `gap`. -/
theorem create_level_store_inv (b : Blackboard)
    (hgap : ∀ k : Int, 0 ≤ k → k < LEVEL_SIZE → (b.columns k).gap = GAP) :
    ∀ k : Int, 0 ≤ k → k < LEVEL_SIZE →
      ((create_level b).columns k).gap = GAP ∧
      (((create_level b).columns k).has_pipe = true →
        k % PIPE_SPACING = 0 ∧ 10 ≤ ((create_level b).columns k).bottom ∧ ((create_level b).columns k).bottom ≤ 86) ∧
      (k ≠ 0 → (((create_level b).columns k).has_pipe = false ↔ ((create_level b).columns k).bottom = -1)) := by
  intro k h0 h1
  obtain ⟨_, hc⟩ := create_level_spec b
  obtain ⟨g, p1, p2, p3⟩ := hc k h0 h1
  have ht : Int.tmod k PIPE_SPACING = k % PIPE_SPACING :=
    Int.tmod_eq_emod h0 (by decide)
  refine ⟨g.trans (hgap k h0 h1), ?_, ?_⟩
  · intro hp
    by_cases hk0 : k = 0
    · rw [(p2 hk0).1] at hp
      exact absurd hp (by decide)
    · by_cases hm : Int.tmod k PIPE_SPACING = 0
      · obtain ⟨_, q2, q3⟩ := p1 ⟨hm, hk0⟩
        exact ⟨by rw [← ht]; exact hm, q2, q3⟩
      · rw [(p3 hm).1] at hp
        exact absurd hp (by decide)
  · intro hk0
    by_cases hm : Int.tmod k PIPE_SPACING = 0
    · obtain ⟨q1, q2, q3⟩ := p1 ⟨hm, hk0⟩
      rw [q1]
      constructor
      · intro h; exact absurd h (by decide)
      · intro h; omega
    · obtain ⟨q1, q2⟩ := p3 hm
      rw [q1, q2]
      simp

/-- The call of `refresh_pipe` made by `TickLevel` keeps the store invariant and writes inside
the array. -/
theorem refresh_pipe_store_inv (i : Int) (b c : Blackboard) (hcb : c.columns = b.columns)
    (h0 : 0 ≤ i) (h1 : i < LEVEL_SIZE) (hm : Int.tmod i PIPE_SPACING = PIPE_SPACING - 1)
    (hinv : ∀ k : Int, 0 ≤ k → k < LEVEL_SIZE →
        (b.columns k).gap = GAP ∧
        ((b.columns k).has_pipe = true →
          k % PIPE_SPACING = 0 ∧ 10 ≤ (b.columns k).bottom ∧ (b.columns k).bottom ≤ 86) ∧
        (k ≠ 0 → ((b.columns k).has_pipe = false ↔ (b.columns k).bottom = -1))) :
    (0 ≤ i - PLAYER_OFFSET ∧ i - PLAYER_OFFSET < LEVEL_SIZE) ∧
    (∀ k : Int, 0 ≤ k → k < LEVEL_SIZE →
       ((refresh_pipe i c).columns k).gap = GAP ∧
       (((refresh_pipe i c).columns k).has_pipe = true →
         k % PIPE_SPACING = 0 ∧ 10 ≤ ((refresh_pipe i c).columns k).bottom ∧ ((refresh_pipe i c).columns k).bottom ≤ 86) ∧
       (k ≠ 0 → (((refresh_pipe i c).columns k).has_pipe = false ↔ ((refresh_pipe i c).columns k).bottom = -1))) := by
  have ht : Int.tmod i PIPE_SPACING = i % PIPE_SPACING := Int.tmod_eq_emod h0 (by decide)
  rw [ht] at hm
  have hL : LEVEL_SIZE = 128 := rfl
  have hS : PIPE_SPACING = 32 := rfl
  have hO : PLAYER_OFFSET = 31 := rfl
  rw [hL] at h1
  rw [hS] at hm
  have hrange : 0 ≤ i - PLAYER_OFFSET ∧ i - PLAYER_OFFSET < LEVEL_SIZE := by
    rw [hO, hL]; omega
  refine ⟨hrange, ?_⟩
  obtain ⟨r1, r2, r3, r4, r5⟩ := refresh_pipe_spec i c
  intro k k0 k1
  by_cases hk : k = i - PLAYER_OFFSET
  · subst hk
    refine ⟨?_, ?_, ?_⟩
    · rw [r2, hcb]
      exact (hinv _ k0 k1).1
    · intro _
      refine ⟨?_, r4, r5⟩
      rw [hO, hS]; omega
    · intro _
      rw [r3]
      constructor
      · intro h; exact absurd h (by decide)
      · intro h; omega
  · rw [r1 k hk, hcb]
    exact hinv k k0 k1

/-- Store and cursor invariant of the reachable configurations: the cursor is inside
`[0, LEVEL_SIZE)`; every column of the array has the constant `gap`; a column with an obstacle
sits at a multiple of `PIPE_SPACING` and has `bottom` in `[10, 86]`; and a column other than
column 0 has no obstacle exactly when its `bottom` is `-1`. -/
theorem Reachable_inv (b : Blackboard) (h : Reachable b) :
    (0 ≤ b.level_i ∧ b.level_i < LEVEL_SIZE) ∧
    (∀ k : Int, 0 ≤ k → k < LEVEL_SIZE →
       (b.columns k).gap = GAP ∧
       ((b.columns k).has_pipe = true →
         k % PIPE_SPACING = 0 ∧ 10 ≤ (b.columns k).bottom ∧ (b.columns k).bottom ≤ 86) ∧
       (k ≠ 0 → ((b.columns k).has_pipe = false ↔ (b.columns k).bottom = -1))) := by
  induction h with
  | start b hc hi =>
    refine ⟨by rw [hi]; decide, ?_⟩
    intro k k0 k1
    rw [hc k k0 k1]
    exact ⟨rfl, fun h => absurd h (by decide), fun _ => ⟨fun _ => rfl, fun _ => rfl⟩⟩
  | create b _ ih =>
    refine ⟨by rw [(create_level_spec b).1]; exact ih.1, ?_⟩
    exact create_level_store_inv b (fun k k0 k1 => (ih.2 k k0 k1).1)
  | tickLevel state b _ ih =>
    obtain ⟨_, _, hi⟩ := TickLevel_cursor state b
    have hL : LEVEL_SIZE = 128 := rfl
    constructor
    · have := ih.1
      rw [hL] at this hi ⊢
      rcases hi with e | e | ⟨e, e2⟩ <;> omega
    · rcases TickLevel_columns state b with e | ⟨hm, _, c, hcb, e⟩
      · rw [e]; exact ih.2
      · rw [e]
        exact (refresh_pipe_store_inv b.level_i b c hcb ih.1.1 ih.1.2 hm ih.2).2
  | tickDraw state b _ ih =>
    rcases TickDraw_columns state b with e | e
    · rw [e]; exact ih
    · rw [e]
      refine ⟨by rw [(create_level_spec b).1]; exact ih.1, ?_⟩
      exact create_level_store_inv b (fun k k0 k1 => (ih.2 k k0 k1).1)
  | other b c _ hc hi ih =>
    rw [hc, hi]
    exact ih

theorem Reachable_levelAfter (gs : Nat → GAME_STATE) (state : Int) (b : Blackboard)
    (h : Reachable b) : ∀ n : Nat, Reachable (levelAfter gs n (state, b)).2 := by
  intro n
  induction n with
  | zero => exact h
  | succ n ih =>
    rw [levelAfter_succ]
    exact Reachable.tickLevel _ _
      (Reachable.other _ { (levelAfter gs n (state, b)).2 with game_state := gs n } ih rfl rfl)

/-! ### TickLevel: the score -/

theorem refresh_pipe_score (i : Int) (b : Blackboard) :
    (refresh_pipe i b).score = b.score := rfl

/-- The score after one tick of `TickLevel`, from any state. -/
theorem TickLevel_score (state : Int) (b : Blackboard) :
    (TickLevel state b).2.score =
      if state = GO ∧ b.game_state = GAME_STATE.PLAY ∧
          Int.tmod b.level_i PIPE_SPACING = 1 ∧ b.level_i ≠ 0 then b.score + 1
      else b.score := by
  unfold TickLevel
  dsimp only
  by_cases hs : state = GO
  · subst hs
    by_cases hg : b.game_state = GAME_STATE.PLAY
    · by_cases hm : Int.tmod b.level_i PIPE_SPACING = 1 ∧ b.level_i ≠ 0
      · simp only [GO, STOP, hg, hm, one_ne_zero, if_false, if_true, and_self, ne_eq,
          not_false_eq_true]
        split_ifs <;> simp [refresh_pipe_score]
      · simp only [GO, STOP, hg, hm, one_ne_zero, if_false, if_true, and_false]
        split_ifs <;> simp [refresh_pipe_score]
    · simp [GO, STOP, hg]
  · by_cases h0 : state = STOP
    · subst h0
      by_cases hg : b.game_state = GAME_STATE.PLAY <;> simp [GO, STOP, hg]
    · simp [hs, h0]

theorem Reachable_sampleBoard : Reachable sampleBoard :=
  Reachable.start sampleBoard (fun _ _ _ => rfl) rfl

/-- C12, as the code has it: a `TickLevel` tick increases `score` by exactly 1 when it is taken
in `GO` with `game_state = PLAY` and the cursor at a nonzero position whose remainder modulo
`PIPE_SPACING` is 1, and leaves `score` unchanged on every other tick; the level store is not
consulted.  In a reachable configuration (cursor in `[0, LEVEL_SIZE)`) such a tick increases
`score` if and only if `cursor mod PIPE_SPACING = 1` (cursor 1, 33, 65 or 97), and this is the
case whenever the cursor is at `c + 1` for a column `c` of the array that has an obstacle. -/
theorem C12_score_increments_by_position :
    (∀ (state : Int) (b : Blackboard),
      (TickLevel state b).2.score =
        if state = GO ∧ b.game_state = GAME_STATE.PLAY ∧
            Int.tmod b.level_i PIPE_SPACING = 1 ∧ b.level_i ≠ 0 then b.score + 1
        else b.score) ∧
    (∀ b : Blackboard, Reachable b → b.game_state = GAME_STATE.PLAY →
      ((TickLevel GO b).2.score = b.score + 1 ↔ b.level_i % PIPE_SPACING = 1) ∧
      (∀ c : Int, 0 ≤ c → b.level_i = c + 1 → (b.columns c).has_pipe = true →
        (TickLevel GO b).2.score = b.score + 1)) := by
  refine ⟨TickLevel_score, ?_⟩
  intro b hr hg
  obtain ⟨⟨h0, h1⟩, hinv⟩ := Reachable_inv b hr
  have ht : Int.tmod b.level_i PIPE_SPACING = b.level_i % PIPE_SPACING :=
    Int.tmod_eq_emod h0 (by decide)
  have hS : PIPE_SPACING = 32 := rfl
  have hL : LEVEL_SIZE = 128 := rfl
  have key : (TickLevel GO b).2.score = b.score + 1 ↔ b.level_i % PIPE_SPACING = 1 := by
    rw [TickLevel_score, ht]
    by_cases hm : b.level_i % PIPE_SPACING = 1
    · have hne : b.level_i ≠ 0 := by
        intro e
        rw [e, hS] at hm
        omega
      simp [hg, hm, hne]
    · simp [hm]
  refine ⟨key, ?_⟩
  intro c hc0 hc hp
  rw [key]
  have := (hinv c hc0 (by rw [hL] at h1 ⊢; omega)).2.1 hp
  rw [hS] at this ⊢
  omega

set_option maxRecDepth 100000 in
/-- Instance of C12: after the start-up `create_level` and 34 ticks in play the cursor is at
33, just after the obstacle of column 32, and the next tick increases the score. -/
theorem C12_score_increments_by_position_witness :
    (TickLevel GO (levelAfter (fun _ => GAME_STATE.PLAY) 34 (STOP, create_level sampleBoard)).2
      ).2.score =
      (levelAfter (fun _ => GAME_STATE.PLAY) 34 (STOP, create_level sampleBoard)).2.score + 1 :=
  ((C12_score_increments_by_position.2
      (levelAfter (fun _ => GAME_STATE.PLAY) 34 (STOP, create_level sampleBoard)).2
      (Reachable_levelAfter _ _ _ (Reachable.create _ Reachable_sampleBoard) 34)
      (by decide)).1).mpr (by decide)

set_option maxRecDepth 100000 in
/-- C12 fails as stated: right after the start-up `create_level` and two ticks in play the
cursor is at 1 and column 0, the only column it follows, has no obstacle; the next tick, taken in
`GO` with `game_state = PLAY`, still increases the score by 1. -/
theorem C12_score_without_obstacle :
    Reachable firstStepsBoard ∧
    (levelAfter (fun _ => GAME_STATE.PLAY) 2 (STOP, create_level sampleBoard)).1 = GO ∧
    firstStepsBoard.game_state = GAME_STATE.PLAY ∧
    firstStepsBoard.level_i = 0 + 1 ∧
    (firstStepsBoard.columns 0).has_pipe = false ∧
    (TickLevel GO firstStepsBoard).2.score = firstStepsBoard.score + 1 := by
  refine ⟨Reachable_levelAfter _ _ _ (Reachable.create _ Reachable_sampleBoard) 2, ?_, ?_, ?_,
    ?_, ?_⟩ <;> decide

/-- A tick of `TickLevel` from any state keeps the cursor inside `[0, LEVEL_SIZE)` and keeps
the store invariant. -/
theorem TickLevel_store_inv (state : Int) (b : Blackboard)
    (hcur : 0 ≤ b.level_i ∧ b.level_i < LEVEL_SIZE)
    (hinv : ∀ k : Int, 0 ≤ k → k < LEVEL_SIZE →
        (b.columns k).gap = GAP ∧
        ((b.columns k).has_pipe = true →
          k % PIPE_SPACING = 0 ∧ 10 ≤ (b.columns k).bottom ∧ (b.columns k).bottom ≤ 86) ∧
        (k ≠ 0 → ((b.columns k).has_pipe = false ↔ (b.columns k).bottom = -1))) :
    (0 ≤ (TickLevel state b).2.level_i ∧ (TickLevel state b).2.level_i < LEVEL_SIZE) ∧
    (∀ k : Int, 0 ≤ k → k < LEVEL_SIZE →
       ((TickLevel state b).2.columns k).gap = GAP ∧
       (((TickLevel state b).2.columns k).has_pipe = true →
         k % PIPE_SPACING = 0 ∧ 10 ≤ ((TickLevel state b).2.columns k).bottom ∧ ((TickLevel state b).2.columns k).bottom ≤ 86) ∧
       (k ≠ 0 → (((TickLevel state b).2.columns k).has_pipe = false ↔ ((TickLevel state b).2.columns k).bottom = -1))) := by
  obtain ⟨_, _, hi⟩ := TickLevel_cursor state b
  have hL : LEVEL_SIZE = 128 := rfl
  constructor
  · have := hcur
    rw [hL] at this hi ⊢
    rcases hi with e | e | ⟨e, e2⟩ <;> omega
  · rcases TickLevel_columns state b with e | ⟨hm, _, c, hcb, e⟩
    · rw [e]; exact hinv
    · rw [e]
      exact (refresh_pipe_store_inv b.level_i b c hcb hcur.1 hcur.2 hm hinv).2

theorem levelAfter_store_inv (gs : Nat → GAME_STATE) (state : Int) (b : Blackboard)
    (hcur : 0 ≤ b.level_i ∧ b.level_i < LEVEL_SIZE)
    (hinv : ∀ k : Int, 0 ≤ k → k < LEVEL_SIZE →
        (b.columns k).gap = GAP ∧
        ((b.columns k).has_pipe = true →
          k % PIPE_SPACING = 0 ∧ 10 ≤ (b.columns k).bottom ∧ (b.columns k).bottom ≤ 86) ∧
        (k ≠ 0 → ((b.columns k).has_pipe = false ↔ (b.columns k).bottom = -1))) (n : Nat) :
    (0 ≤ (levelAfter gs n (state, b)).2.level_i ∧
      (levelAfter gs n (state, b)).2.level_i < LEVEL_SIZE) ∧
    (∀ k : Int, 0 ≤ k → k < LEVEL_SIZE →
       ((levelAfter gs n (state, b)).2.columns k).gap = GAP ∧
       (((levelAfter gs n (state, b)).2.columns k).has_pipe = true →
         k % PIPE_SPACING = 0 ∧ 10 ≤ ((levelAfter gs n (state, b)).2.columns k).bottom ∧ ((levelAfter gs n (state, b)).2.columns k).bottom ≤ 86) ∧
       (k ≠ 0 → (((levelAfter gs n (state, b)).2.columns k).has_pipe = false ↔ ((levelAfter gs n (state, b)).2.columns k).bottom = -1))) := by
  induction n with
  | zero => exact ⟨hcur, hinv⟩
  | succ n ih =>
    rw [levelAfter_succ]
    exact TickLevel_store_inv _ { (levelAfter gs n (state, b)).2 with game_state := gs n }
      ih.1 ih.2

/-- C17: after `create_level` (called on a store whose columns carry the constant `gap`, with
the cursor in `[0, LEVEL_SIZE)`) and after any subsequent sequence of `TickLevel` ticks, and
more generally in every reachable configuration, every column of the array whose `has_pipe` is
true sits at an index that is a multiple of `PIPE_SPACING = 32` and has `bottom` in `[10, 86]`,
so that `bottom + gap ≤ 118`; and a `TickLevel` tick taken with the cursor in range either
leaves the store as it is or writes it through `refresh_pipe` at the index
`cursor - PLAYER_OFFSET`, which is then in `[0, LEVEL_SIZE)`. -/
theorem C17_level_store_invariant :
    (∀ (b : Blackboard) (gs : Nat → GAME_STATE) (state : Int) (n : Nat),
      (∀ k : Int, 0 ≤ k → k < LEVEL_SIZE → (b.columns k).gap = GAP) →
      0 ≤ b.level_i → b.level_i < LEVEL_SIZE →
      ∀ k : Int, 0 ≤ k → k < LEVEL_SIZE → ((levelAfter gs n (state, create_level b)).2.columns k).has_pipe = true →
        k % PIPE_SPACING = 0 ∧ 10 ≤ ((levelAfter gs n (state, create_level b)).2.columns k).bottom ∧ ((levelAfter gs n (state, create_level b)).2.columns k).bottom ≤ 86 ∧
        ((levelAfter gs n (state, create_level b)).2.columns k).bottom + ((levelAfter gs n (state, create_level b)).2.columns k).gap ≤ 118) ∧
    (∀ b : Blackboard, Reachable b →
      ∀ k : Int, 0 ≤ k → k < LEVEL_SIZE → (b.columns k).has_pipe = true →
        k % PIPE_SPACING = 0 ∧ 10 ≤ (b.columns k).bottom ∧ (b.columns k).bottom ≤ 86 ∧
        (b.columns k).bottom + (b.columns k).gap ≤ 118) ∧
    (∀ (state : Int) (b : Blackboard), 0 ≤ b.level_i → b.level_i < LEVEL_SIZE →
      (TickLevel state b).2.columns = b.columns ∨
      (∃ c : Blackboard, c.columns = b.columns ∧
        (TickLevel state b).2.columns = (refresh_pipe b.level_i c).columns ∧
        0 ≤ b.level_i - PLAYER_OFFSET ∧ b.level_i - PLAYER_OFFSET < LEVEL_SIZE)) := by
  have hG : GAP = 32 := rfl
  refine ⟨?_, ?_, ?_⟩
  · intro b gs state n hgap h0 h1 k k0 k1 hp
    have hc := create_level_store_inv b hgap
    have hl : 0 ≤ (create_level b).level_i ∧ (create_level b).level_i < LEVEL_SIZE := by
      rw [(create_level_spec b).1]; exact ⟨h0, h1⟩
    obtain ⟨g, q, _⟩ := (levelAfter_store_inv gs state (create_level b) hl hc n).2 k k0 k1
    obtain ⟨q1, q2, q3⟩ := q hp
    refine ⟨q1, q2, q3, ?_⟩
    rw [g, hG]; omega
  · intro b hr k k0 k1 hp
    obtain ⟨g, q, _⟩ := (Reachable_inv b hr).2 k k0 k1
    obtain ⟨q1, q2, q3⟩ := q hp
    refine ⟨q1, q2, q3, ?_⟩
    rw [g, hG]; omega
  · intro state b h0 h1
    rcases TickLevel_columns state b with e | ⟨hm, _, c, hcb, e⟩
    · exact Or.inl e
    · right
      refine ⟨c, hcb, e, ?_⟩
      have ht : Int.tmod b.level_i PIPE_SPACING = b.level_i % PIPE_SPACING :=
        Int.tmod_eq_emod h0 (by decide)
      rw [ht] at hm
      have hL : LEVEL_SIZE = 128 := rfl
      have hS : PIPE_SPACING = 32 := rfl
      have hO : PLAYER_OFFSET = 31 := rfl
      rw [hL] at h1 ⊢
      rw [hS] at hm
      rw [hO]
      omega

set_option maxRecDepth 100000 in
/-- Instance of C17: after the start-up `create_level` and 40 ticks in play, column 0 has been
regenerated and its `bottom` is at most 86; column 64 of a reachable store likewise. -/
theorem C17_level_store_invariant_witness :
    ((levelAfter (fun _ => GAME_STATE.PLAY) 40 (STOP, create_level sampleBoard)).2.columns
      0).bottom ≤ 86 ∧
    ((create_level sampleBoard).columns 64).bottom ≤ 86 :=
  ⟨(C17_level_store_invariant.1 sampleBoard (fun _ => GAME_STATE.PLAY) STOP 40
      (fun _ _ _ => rfl) (by decide) (by decide) 0 (by decide) (by decide) (by decide)).2.2.1,
   (C17_level_store_invariant.2.1 (create_level sampleBoard)
      (Reachable.create _ Reachable_sampleBoard) 64 (by decide) (by decide) (by decide)).2.2.1⟩

/-- C18, as the code has it: in every reachable level store, every column of the array other
than column 0 has `has_pipe` false if and only if its `bottom` is the sentinel `-1`, and every
column, column 0 included, whose `bottom` is `-1` has `has_pipe` false. -/
theorem C18_sentinel_except_column_zero (b : Blackboard) (hr : Reachable b) :
    ∀ k : Int, 0 ≤ k → k < LEVEL_SIZE →
      (k ≠ 0 → ((b.columns k).has_pipe = false ↔ (b.columns k).bottom = -1)) ∧
      ((b.columns k).bottom = -1 → (b.columns k).has_pipe = false) := by
  intro k k0 k1
  obtain ⟨_, q, s⟩ := (Reachable_inv b hr).2 k k0 k1
  refine ⟨s, ?_⟩
  intro hb
  rw [← Bool.not_eq_true]
  intro hp
  have := q hp
  omega

set_option maxRecDepth 100000 in
/-- Instance of C18: column 32 of the store built by the start-up `create_level`. -/
theorem C18_sentinel_except_column_zero_witness :
    (((create_level sampleBoard).columns 32).has_pipe = false ↔
      ((create_level sampleBoard).columns 32).bottom = -1) :=
  (C18_sentinel_except_column_zero (create_level sampleBoard)
    (Reachable.create _ Reachable_sampleBoard) 32 (by decide) (by decide)).1 (by decide)

set_option maxRecDepth 100000 in
/-- C18 fails as stated: once the cursor has passed position 31 (`refresh_pipe` gives column 0
an obstacle) and `TickDraw` has called `create_level` again (its `i == 0` branch clears
`has_pipe` only), column 0 has `has_pipe = false` and a `bottom` other than `-1`. -/
theorem C18_column_zero_keeps_bottom :
    Reachable recreatedBoard ∧
    (recreatedBoard.columns 0).has_pipe = false ∧
    (recreatedBoard.columns 0).bottom = 10 ∧
    ¬ ((recreatedBoard.columns 0).has_pipe = false ↔ (recreatedBoard.columns 0).bottom = -1) := by
  refine ⟨Reachable.tickDraw _ _
    (Reachable_levelAfter _ _ _ (Reachable.create _ Reachable_sampleBoard) 33), ?_, ?_, ?_⟩ <;>
    decide

/-! ### TickDeath: the indices read by the windowed scan -/

/-- The value of `dead` after a `TickDeath` tick, with the eleven indices of the scan spelled
out as `wrapped_i (frame - 5 + k)`, `k < 11`. -/
theorem TickDeath_dead_scan (state : Int) (b : Blackboard) :
    (TickDeath state b).2.dead = true ↔
      ((b.height < 0 ∨ 128 < b.height) ∨
       ((b.columns b.curr_column).has_pipe = true ∧
          (b.height < (b.columns b.curr_column).bottom ∨
            (b.columns b.curr_column).bottom + (b.columns b.curr_column).gap < b.height)) ∨
       (∃ k : Nat, k < 11 ∧
          (b.columns (wrapped_i (b.frame - 5 + (k : Int)))).has_pipe = true ∧
          (b.height - 1 < (b.columns (wrapped_i (b.frame - 5 + (k : Int)))).bottom ∨
            (b.columns (wrapped_i (b.frame - 5 + (k : Int)))).bottom +
              (b.columns (wrapped_i (b.frame - 5 + (k : Int)))).gap < b.height + 2))) := by
  unfold TickDeath
  split_ifs with ha hb
  · simp only [true_iff]
    exact Or.inl ha
  · simp only [true_iff]
    exact Or.inr (Or.inl hb)
  · have h2 : PLAYER_SIZE / 2 = 5 := by decide
    rw [h2]
    have hn : (b.frame + 5 + 1 - (b.frame - 5)).toNat = 11 := by
      have : b.frame + 5 + 1 - (b.frame - 5) = 11 := by ring
      rw [this]; rfl
    unfold forRange
    rw [hn]
    rw [(scan_foldl (b.frame - 5) (List.range 11) { b with dead := false }).2.2]
    simp only [Bool.false_eq_true, false_or, List.mem_range]
    constructor
    · intro h
      exact Or.inr (Or.inr h)
    · rintro (h | h | h)
      · exact absurd h ha
      · exact absurd h hb
      · exact h

/-- C21: for every `frame` in `[0, LEVEL_SIZE)`, every index `wrapped_i i` that the windowed
scan of `TickDeath` uses (`i` from `frame - PLAYER_SIZE/2` up to, and not including,
`frame + PLAYER_SIZE/2 + 1`, that is `frame - 5 .. frame + 5`) lies in `[0, LEVEL_SIZE)` and
equals `i mod LEVEL_SIZE`; so the scan does not read outside the array: with the current
column inside the array too, changing the store outside the indices `0 .. LEVEL_SIZE - 1` does
not change the `dead` flag computed by the tick. -/
theorem C21_scan_indices_in_range :
    (∀ frame i : Int, 0 ≤ frame → frame < LEVEL_SIZE →
      frame - PLAYER_SIZE / 2 ≤ i → i < frame + PLAYER_SIZE / 2 + 1 →
      (frame - 5 ≤ i ∧ i ≤ frame + 5) ∧
      0 ≤ wrapped_i i ∧ wrapped_i i < LEVEL_SIZE ∧ wrapped_i i = i % LEVEL_SIZE) ∧
    (∀ (state : Int) (b : Blackboard) (cols : Int → column),
      0 ≤ b.frame → b.frame < LEVEL_SIZE →
      0 ≤ b.curr_column → b.curr_column < LEVEL_SIZE →
      (∀ k : Int, 0 ≤ k → k < LEVEL_SIZE → cols k = b.columns k) →
      (TickDeath state { b with columns := cols }).2.dead = (TickDeath state b).2.dead) := by
  have hL : LEVEL_SIZE = 128 := rfl
  have h2 : PLAYER_SIZE / 2 = 5 := by decide
  have idx : ∀ frame i : Int, 0 ≤ frame → frame < LEVEL_SIZE →
      frame - 5 ≤ i → i ≤ frame + 5 →
      0 ≤ wrapped_i i ∧ wrapped_i i < LEVEL_SIZE ∧ wrapped_i i = i % LEVEL_SIZE := by
    intro frame i f0 f1 i0 i1
    rw [hL] at f1
    have e := wrapped_i_eq_emod i (by rw [hL]; omega) (by rw [hL]; omega)
    rw [e, hL]
    omega
  constructor
  · intro frame i f0 f1 i0 i1
    rw [h2] at i0 i1
    exact ⟨⟨i0, by omega⟩, idx frame i f0 f1 i0 (by omega)⟩
  · intro state b cols f0 f1 c0 c1 hcols
    have hcur : cols b.curr_column = b.columns b.curr_column := hcols _ c0 c1
    have hscan : ∀ k : Nat, k < 11 →
        cols (wrapped_i (b.frame - 5 + (k : Int))) =
          b.columns (wrapped_i (b.frame - 5 + (k : Int))) := by
      intro k hk
      obtain ⟨w0, w1, _⟩ := idx b.frame (b.frame - 5 + (k : Int)) f0 f1 (by omega) (by omega)
      exact hcols _ w0 w1
    rw [Bool.eq_iff_iff, TickDeath_dead_scan, TickDeath_dead_scan]
    show ((b.height < 0 ∨ 128 < b.height) ∨
       ((cols b.curr_column).has_pipe = true ∧
          (b.height < (cols b.curr_column).bottom ∨
            (cols b.curr_column).bottom + (cols b.curr_column).gap < b.height)) ∨
       (∃ k : Nat, k < 11 ∧
          (cols (wrapped_i (b.frame - 5 + (k : Int)))).has_pipe = true ∧
          (b.height - 1 < (cols (wrapped_i (b.frame - 5 + (k : Int)))).bottom ∨
            (cols (wrapped_i (b.frame - 5 + (k : Int)))).bottom +
              (cols (wrapped_i (b.frame - 5 + (k : Int)))).gap < b.height + 2))) ↔ _
    rw [hcur]
    constructor
    · rintro (h | h | ⟨k, hk, hp⟩)
      · exact Or.inl h
      · exact Or.inr (Or.inl h)
      · rw [hscan k hk] at hp
        exact Or.inr (Or.inr ⟨k, hk, hp⟩)
    · rintro (h | h | ⟨k, hk, hp⟩)
      · exact Or.inl h
      · exact Or.inr (Or.inl h)
      · rw [← hscan k hk] at hp
        exact Or.inr (Or.inr ⟨k, hk, hp⟩)

/-- Instance of C21: at `frame = 2` the scan index `i = -3` is read at `125`, and at
`frame = 125` the index `i = 130` is read at `2`. -/
theorem C21_scan_indices_in_range_witness :
    (wrapped_i (-3) = (-3) % LEVEL_SIZE ∧ wrapped_i (-3) < LEVEL_SIZE) ∧
    (wrapped_i 130 = 130 % LEVEL_SIZE ∧ 0 ≤ wrapped_i 130) ∧
    (TickDeath CHECK { bandBoard with columns := fun k => if k = 32 then bandBoard.columns k
        else if k = 500 then { has_pipe := true, gap := 32, bottom := 120 } else {} }).2.dead
      = (TickDeath CHECK bandBoard).2.dead :=
  ⟨⟨(C21_scan_indices_in_range.1 2 (-3) (by decide) (by decide) (by decide) (by decide)).2.2.2,
    (C21_scan_indices_in_range.1 2 (-3) (by decide) (by decide) (by decide) (by decide)).2.2.1⟩,
   ⟨(C21_scan_indices_in_range.1 125 130 (by decide) (by decide) (by decide)
      (by decide)).2.2.2,
    (C21_scan_indices_in_range.1 125 130 (by decide) (by decide) (by decide) (by decide)).2.1⟩,
   C21_scan_indices_in_range.2 CHECK bandBoard _ (by decide) (by decide) (by decide)
    (by decide)
    (by
      intro k k0 k1
      have hL : LEVEL_SIZE = 128 := rfl
      rw [hL] at k1
      by_cases h32 : k = 32
      · simp [h32]
      · have h500 : k ≠ 500 := by omega
        simp [h32, h500, bandBoard])⟩

/-! ### TickPosition: the hang-time counter across a reset -/

/-- The hang-time counter on the ticks around a reset: the transition from `JUMPING` to
`RESTART` clears it, the transitions from `FREEZE` to `RESTART` and from `RESTART` to `FREEZE`
leave it as it is. -/
theorem TickPosition_reset_counter (b : Blackboard) :
    (b.game_state = GAME_STATE.RESET →
      (TickPosition JUMPING b).1 = RESTART ∧ (TickPosition JUMPING b).2.pos_cnt = 0) ∧
    (b.game_state = GAME_STATE.RESET →
      (TickPosition FREEZE b).1 = RESTART ∧ (TickPosition FREEZE b).2.pos_cnt = b.pos_cnt) ∧
    ((TickPosition RESTART b).1 = FREEZE ∧ (TickPosition RESTART b).2.pos_cnt = b.pos_cnt) := by
  refine ⟨?_, ?_, ?_⟩
  · intro hg
    simp [TickPosition, hg, FALLING, JUMPING, FREEZE, RESTART]
  · intro hg
    simp [TickPosition, hg, FALLING, JUMPING, FREEZE, RESTART]
  · simp [TickPosition, FALLING, JUMPING, FREEZE, RESTART]

/-- C22: evaluation of `TickPosition` on the run where the claim fails, from the initial
configuration (state `RESTART`, hang-time counter 0).  After a jump impulse (tick 3) the game is
paused in mid-jump (tick 4: `FREEZE`, counter 1) and a reset is requested while it is paused
(tick 5: `FREEZE` to `RESTART`, a transition that does not clear the counter).  Tick 6 leaves
`RESTART` and parks in `FREEZE` with the counter at 1, not 0, and the first tick under `PLAY`
after the reset (tick 7) resumes in `JUMPING`, not in `FALLING`, raising `height` from the
start value 64 to 67. -/
theorem C22_reset_while_paused_keeps_counter :
    sampleBoard.pos_cnt = 0 ∧
    ((positionAfter pausedResetPhase pausedResetJump (fun _ => false) 4
        (RESTART, sampleBoard)).1 = FREEZE ∧
      (positionAfter pausedResetPhase pausedResetJump (fun _ => false) 4
        (RESTART, sampleBoard)).2.pos_cnt = 1) ∧
    (positionAfter pausedResetPhase pausedResetJump (fun _ => false) 5
        (RESTART, sampleBoard)).1 = RESTART ∧
    ((positionAfter pausedResetPhase pausedResetJump (fun _ => false) 6
        (RESTART, sampleBoard)).1 = FREEZE ∧
      (positionAfter pausedResetPhase pausedResetJump (fun _ => false) 6
        (RESTART, sampleBoard)).2.pos_cnt = 1 ∧
      (positionAfter pausedResetPhase pausedResetJump (fun _ => false) 6
        (RESTART, sampleBoard)).2.height = 64) ∧
    (pausedResetPhase 6 = GAME_STATE.PLAY ∧
      (positionAfter pausedResetPhase pausedResetJump (fun _ => false) 7
        (RESTART, sampleBoard)).1 = JUMPING ∧
      (positionAfter pausedResetPhase pausedResetJump (fun _ => false) 7
        (RESTART, sampleBoard)).1 ≠ FALLING ∧
      (positionAfter pausedResetPhase pausedResetJump (fun _ => false) 7
        (RESTART, sampleBoard)).2.height = 67) := by
  decide
end ClickyBird
